import Mathlib

/-!
Verification of the MVS table-extraction engine (mvs-parser)

This file gives a shallow embedding, in Lean 4, of the layout-based tabular
extraction engine of the `mvs-parser` repository (the four record assemblers in
`src/app/parsers/*_original.py` and their shared helpers), together with
theorems settling the claims about it.

Modelling conventions:
* Python `float` values parsed from decimal text are modelled as rationals
  (`ℚ`); `float(s)` is `pyFloat s : Option ℚ` covering sign / digits /
  fraction / exponent literals (the special forms `inf` and `nan` are modelled
  as parse failures: the code only ever range-checks such values against
  finite windows, where they are rejected anyway).
* Python `round(x, k)` is round-half-to-even at `k` decimal digits on the
  exact rational, `int(x)` is truncation toward zero.
* `pdfplumber` (page access, cropping, word/table extraction) is the external
  provider: pages are modelled by the data the engine reads from them (tables
  of cells, cropped column texts, positioned words), and opening a document is
  an `Option` (`none` = file missing / unreadable).
* Table cells extracted as Python `None` are modelled as `""` (the code
  immediately maps falsy cells to `''`).
-/

/-! ## Python string and number primitives -/

/-- Is `pat` a leading prefix of `l`? -/
def leadMatch : List Char → List Char → Bool
  | [], _ => true
  | _ :: _, [] => false
  | p :: ps, c :: cs => p == c && leadMatch ps cs

/-- Does `pat` occur as a contiguous sublist of `l`? (Python `pat in s`.) -/
def subMatch (pat : List Char) : List Char → Bool
  | [] => leadMatch pat []
  | c :: cs => leadMatch pat (c :: cs) || subMatch pat cs

/-- Python `pat in hay` on strings. -/
def strContains (hay pat : String) : Bool := subMatch pat.toList hay.toList

/-- Python `s.upper()` (ASCII). -/
def pyUpper (s : String) : String := String.mk (s.toList.map Char.toUpper)

/-- Python `s.isupper()` (ASCII): at least one cased character and no
lowercase character. -/
def pyIsUpper (s : String) : Bool :=
  s.toList.any (fun c => c.isUpper) && s.toList.all (fun c => !c.isLower)

/-- Python `s.strip()` (whitespace from both ends; list-based so that it
reduces in the kernel). -/
def pyTrim (s : String) : String :=
  String.mk
    (((s.toList.dropWhile Char.isWhitespace).reverse.dropWhile
      Char.isWhitespace).reverse)

/-- Accumulating scanner behind `pySplit`. -/
def pySplitGo : List Char → List Char → List String
  | [], cur => if cur = [] then [] else [String.mk cur.reverse]
  | c :: cs, cur =>
    if c.isWhitespace then
      if cur = [] then pySplitGo cs []
      else String.mk cur.reverse :: pySplitGo cs []
    else pySplitGo cs (c :: cur)

/-- Python `s.split()` with no argument: split on whitespace runs,
dropping empty pieces. -/
def pySplit (s : String) : List String := pySplitGo s.toList []

/-- Accumulating scanner behind `splitLines`. -/
def splitLinesGo : List Char → List Char → List String
  | [], cur => [String.mk cur.reverse]
  | c :: cs, cur =>
    if c = '\n' then String.mk cur.reverse :: splitLinesGo cs []
    else splitLinesGo cs (c :: cur)

/-- Python `s.split('\n')` (keeps empty pieces). -/
def splitLines (s : String) : List String := splitLinesGo s.toList []

/-- Python `s.startswith(pat)`. -/
def pyStartsWith (s pat : String) : Bool := leadMatch pat.toList s.toList

/-- `' '.join(parts)`. -/
def joinSpace (l : List String) : String := String.intercalate " " l

/-- Python `s.strip('()')`-style stripping of a character set from both ends. -/
def stripSet (set : List Char) (s : String) : String :=
  String.mk
    (((s.toList.dropWhile (fun c => set.contains c)).reverse.dropWhile
      (fun c => set.contains c)).reverse)

/-- One pass of Python `s.replace(pat, repl)` (all non-overlapping
occurrences, left to right); `fuel` bounds the recursion. -/
def replaceSubGo (pat repl : List Char) : ℕ → List Char → List Char
  | 0, l => l
  | _ + 1, [] => []
  | fuel + 1, c :: cs =>
    if pat ≠ [] && leadMatch pat (c :: cs) then
      repl ++ replaceSubGo pat repl fuel ((c :: cs).drop pat.length)
    else
      c :: replaceSubGo pat repl fuel cs

/-- Python `s.replace(pat, repl)` (for nonempty `pat`, as used by the code). -/
def strReplace (s pat repl : String) : String :=
  String.mk (replaceSubGo pat.toList repl.toList s.toList.length s.toList)

/-- Decimal digits to a natural number. -/
def digitsToNat (ds : List Char) : ℕ :=
  ds.foldl (fun a c => a * 10 + (c.toNat - 48)) 0

/-! Rational arithmetic is written through `mkRat` and integer arithmetic
(`qadd`, `qsub`, `qabs`, ...) so that every parser run reduces inside the
kernel; the bridging lemmas `qadd_eq` etc. identify these with the field
operations of `ℚ`. -/

def qadd (a b : ℚ) : ℚ := mkRat (a.num * b.den + b.num * a.den) (a.den * b.den)

def qsub (a b : ℚ) : ℚ := mkRat (a.num * b.den - b.num * a.den) (a.den * b.den)

def qneg (a : ℚ) : ℚ := mkRat (-a.num) a.den

def qabs (a : ℚ) : ℚ := mkRat |a.num| a.den

/-- `a * 10 ^ k`. -/
def qmulPow10 (a : ℚ) (k : ℕ) : ℚ := mkRat (a.num * 10 ^ k) a.den

/-- `a / 10`. -/
def qdivTen (a : ℚ) : ℚ := mkRat a.num (a.den * 10)

theorem qadd_eq (a b : ℚ) : qadd a b = a + b := by
  rw [qadd, Rat.mkRat_eq_div]
  have ha : ((a.den : ℚ)) ≠ 0 := by
    exact_mod_cast a.den_nz
  have hb : ((b.den : ℚ)) ≠ 0 := by
    exact_mod_cast b.den_nz
  conv_rhs => rw [← Rat.num_div_den a, ← Rat.num_div_den b]
  push_cast
  field_simp

theorem qsub_eq (a b : ℚ) : qsub a b = a - b := by
  rw [qsub, Rat.mkRat_eq_div]
  have ha : ((a.den : ℚ)) ≠ 0 := by
    exact_mod_cast a.den_nz
  have hb : ((b.den : ℚ)) ≠ 0 := by
    exact_mod_cast b.den_nz
  conv_rhs => rw [← Rat.num_div_den a, ← Rat.num_div_den b]
  push_cast
  field_simp
  ring

theorem qneg_eq (a : ℚ) : qneg a = -a := by
  rw [qneg, Rat.mkRat_eq_div]
  conv_rhs => rw [← Rat.num_div_den a]
  push_cast
  rw [neg_div]

theorem qabs_eq (a : ℚ) : qabs a = |a| := by
  rw [qabs, Rat.mkRat_eq_div]
  conv_rhs => rw [← Rat.num_div_den a]
  rw [abs_div]
  congr 1
  · exact Int.cast_abs
  · exact (abs_of_nonneg (by positivity)).symm

theorem qmulPow10_eq (a : ℚ) (k : ℕ) : qmulPow10 a k = a * 10 ^ k := by
  rw [qmulPow10, Rat.mkRat_eq_div]
  have ha : ((a.den : ℚ)) ≠ 0 := by
    exact_mod_cast a.den_nz
  conv_rhs => rw [← Rat.num_div_den a]
  push_cast
  field_simp

theorem qdivTen_eq (a : ℚ) : qdivTen a = a / 10 := by
  rw [qdivTen, Rat.mkRat_eq_div]
  have ha : ((a.den : ℚ)) ≠ 0 := by
    exact_mod_cast a.den_nz
  conv_rhs => rw [← Rat.num_div_den a]
  push_cast
  field_simp

/-- Python `float(s)` on decimal literals: optional sign, digits with an
optional fractional part, optional exponent; surrounding whitespace stripped.
Returns `none` where Python raises `ValueError` (and for `inf`/`nan`). -/
def pyFloat (s : String) : Option ℚ :=
  let cs0 := (pyTrim s).toList
  let sgn : ℤ := match cs0 with
    | '-' :: _ => -1
    | _ => 1
  let cs := match cs0 with
    | '+' :: r => r
    | '-' :: r => r
    | r => r
  let intPart := cs.takeWhile Char.isDigit
  let cs1 := cs.dropWhile Char.isDigit
  let fracPart := match cs1 with
    | '.' :: r => r.takeWhile Char.isDigit
    | _ => []
  let cs2 := match cs1 with
    | '.' :: r => r.dropWhile Char.isDigit
    | r => r
  if intPart = [] ∧ fracPart = [] then none
  else
    let mnum : ℤ :=
      sgn * (digitsToNat intPart * 10 ^ fracPart.length + digitsToNat fracPart)
    let mden : ℕ := 10 ^ fracPart.length
    match cs2 with
    | [] => some (mkRat mnum mden)
    | e :: r =>
      if e = 'e' ∨ e = 'E' then
        let epos : Bool := match r with
          | '-' :: _ => false
          | _ => true
        let r1 := match r with
          | '+' :: rr => rr
          | '-' :: rr => rr
          | rr => rr
        let eds := r1.takeWhile Char.isDigit
        if eds = [] ∨ r1.dropWhile Char.isDigit ≠ [] then none
        else if epos then some (mkRat (mnum * 10 ^ digitsToNat eds) mden)
        else some (mkRat mnum (mden * 10 ^ digitsToNat eds))
      else none

/-- Python `int(x)` on a float: truncation toward zero. -/
def pyInt (q : ℚ) : ℤ := if 0 ≤ q then ⌊q⌋ else -⌊qneg q⌋

/-- Python `round(x)`: round half to even, to an integer. -/
def roundHalfEven (q : ℚ) : ℤ :=
  let f := ⌊q⌋
  let r := qsub q (mkRat f 1)
  if r < mkRat 1 2 then f
  else if mkRat 1 2 < r then f + 1
  else if f % 2 = 0 then f else f + 1

/-- Python `round(x, k)`: round half to even at `k` decimal digits. -/
def roundTo (k : ℕ) (q : ℚ) : ℚ := mkRat (roundHalfEven (qmulPow10 q k)) (10 ^ k)

/-- Insert `x` after all list elements `y` with `le y x` (the insertion step
of a stable ascending insertion sort, matching Python's stable `sorted`). -/
def insertLe (le : α → α → Bool) (x : α) : List α → List α
  | [] => [x]
  | y :: ys => if le y x then y :: insertLe le x ys else x :: y :: ys

/-- Stable ascending sort (Python `sorted` / `list.sort`). -/
def stableSortBy (le : α → α → Bool) (l : List α) : List α :=
  l.foldl (fun acc x => insertLe le x acc) []

/-- Keys of a Python `dict` built by repeated indexing: first-occurrence
order, no duplicates. -/
def firstKeys [DecidableEq κ] (l : List κ) : List κ :=
  l.foldl (fun acc k => if acc.contains k then acc else acc ++ [k]) []

/-- Python regex word characters (`\w`, ASCII). -/
def isWordChar (c : Char) : Bool := c.isAlphanum || c == '_'

/-- Does word `w` match at the head of `l` with a word boundary after it? -/
def wordAt (w : List Char) (l : List Char) : Bool :=
  leadMatch w l &&
    (match l.drop w.length with
     | [] => true
     | c :: _ => !isWordChar c)

/-- Scan for any of the words `ws` delimited by word boundaries
(`re.search(r'\b(w1|w2|...)\b', s)`); `prev` is the character before the
current position. -/
def hasWordGo (ws : List (List Char)) : Option Char → List Char → Bool
  | _, [] => false
  | prev, c :: cs =>
    ((match prev with
      | none => true
      | some p => !isWordChar p) && ws.any (fun w => wordAt w (c :: cs)))
    || hasWordGo ws (some c) cs

/-- `re.search(r'\b(w1|...)\b', s) is not None` for literal words. -/
def hasWordIn (ws : List String) (s : String) : Bool :=
  hasWordGo (ws.map String.toList) none s.toList

/-! ## Generic scan loops -/

/-- Run a state-and-emit step over a list, concatenating emissions
(the shape of every row/line loop in the parsers). -/
def scanStep (step : σ → ι → σ × List ρ) : σ → List ι → σ × List ρ
  | st, [] => (st, [])
  | st, x :: xs =>
    let p := step st x
    let q := scanStep step p.1 xs
    (q.1, p.2 ++ q.2)

/-- Pair every element with its successor (the one-line look-ahead used by
the position-based local-multiplier loop). -/
def withNext : List α → List (α × Option α)
  | [] => []
  | [x] => [(x, none)]
  | x :: y :: r => (x, some y) :: withNext (y :: r)

theorem mem_insertLe {le : α → α → Bool} {x a : α} {l : List α} :
    a ∈ insertLe le x l ↔ a = x ∨ a ∈ l := by
  induction l with
  | nil => simp [insertLe]
  | cons y ys ih =>
    by_cases h : le y x
    · simp only [insertLe, if_pos h, List.mem_cons, ih]
      tauto
    · simp only [insertLe, if_neg h, List.mem_cons]

theorem mem_foldl_insertLe {le : α → α → Bool} {a : α} {l acc : List α} :
    a ∈ l.foldl (fun acc x => insertLe le x acc) acc ↔ a ∈ acc ∨ a ∈ l := by
  induction l generalizing acc with
  | nil => simp
  | cons y ys ih =>
    simp only [List.foldl_cons, ih, mem_insertLe, List.mem_cons]
    tauto

theorem mem_stableSortBy {le : α → α → Bool} {a : α} {l : List α} :
    a ∈ stableSortBy le l ↔ a ∈ l := by
  simp [stableSortBy, mem_foldl_insertLe]

theorem scanStep_mem {step : σ → ι → σ × List ρ} {st : σ} {l : List ι} {r : ρ}
    (h : r ∈ (scanStep step st l).2) : ∃ s x, x ∈ l ∧ r ∈ (step s x).2 := by
  induction l generalizing st with
  | nil => simp [scanStep] at h
  | cons y ys ih =>
    simp only [scanStep, List.mem_append] at h
    rcases h with h | h
    · exact ⟨st, y, List.mem_cons_self _ _, h⟩
    · obtain ⟨s, x, hx, hr⟩ := ih h
      exact ⟨s, x, List.mem_cons_of_mem _ hx, hr⟩

/-! ## `clean_text_spacing` (local_multipliers_original.py)

The five `re.sub` passes are modelled as left-to-right scanners over the
character list; each emits non-overlapping leftmost matches exactly as
`re.sub` does, with `fuel` bounding the recursion (list length suffices). -/

/-- `re.sub(r'\b([A-Z])\s+(t)', r'\1\2', s)` for a target class `t`
(`[a-z]` in the first pass, `[A-Z]` in the second); `prev` carries the
previous character for the word boundary. -/
def ctsPairGo (target : Char → Bool) : ℕ → Option Char → List Char → List Char
  | 0, _, l => l
  | _ + 1, _, [] => []
  | fuel + 1, prev, c :: cs =>
    let bound : Bool := match prev with
      | none => true
      | some p => !isWordChar p
    if bound && c.isUpper then
      match cs.takeWhile (fun x => x.isWhitespace),
            cs.dropWhile (fun x => x.isWhitespace) with
      | _ :: _, l :: rest2 =>
        if target l then c :: l :: ctsPairGo target fuel (some l) rest2
        else c :: ctsPairGo target fuel (some c) cs
      | _, _ => c :: ctsPairGo target fuel (some c) cs
    else c :: ctsPairGo target fuel (some c) cs

/-- `re.sub(r'(\d)\s+(\.\d+)', r'\1\2', s)`. -/
def ctsSub3Go : ℕ → List Char → List Char
  | 0, l => l
  | _ + 1, [] => []
  | fuel + 1, c :: cs =>
    if c.isDigit then
      match cs.takeWhile (fun x => x.isWhitespace),
            cs.dropWhile (fun x => x.isWhitespace) with
      | _ :: _, '.' :: d :: ds =>
        if d.isDigit then
          c :: '.' :: ((d :: ds).takeWhile Char.isDigit
            ++ ctsSub3Go fuel ((d :: ds).dropWhile Char.isDigit))
        else c :: ctsSub3Go fuel cs
      | _, _ => c :: ctsSub3Go fuel cs
    else c :: ctsSub3Go fuel cs

/-- `re.sub(r'(\d\.)\s+(\d+)', r'\1\2', s)`. -/
def ctsSub4Go : ℕ → List Char → List Char
  | 0, l => l
  | _ + 1, [] => []
  | fuel + 1, c :: cs =>
    match cs with
    | '.' :: cs2 =>
      if c.isDigit then
        match cs2.takeWhile (fun x => x.isWhitespace),
              cs2.dropWhile (fun x => x.isWhitespace) with
        | _ :: _, d :: ds =>
          if d.isDigit then
            c :: '.' :: ((d :: ds).takeWhile Char.isDigit
              ++ ctsSub4Go fuel ((d :: ds).dropWhile Char.isDigit))
          else c :: ctsSub4Go fuel cs
        | _, _ => c :: ctsSub4Go fuel cs
      else c :: ctsSub4Go fuel cs
    | _ => c :: ctsSub4Go fuel cs

/-- `re.sub(r'([A-Za-z])(\d)', r'\1 \2', s)`. -/
def ctsSub5Go : ℕ → List Char → List Char
  | 0, l => l
  | _ + 1, [] => []
  | fuel + 1, c :: cs =>
    match cs with
    | d :: rest =>
      if c.isAlpha && d.isDigit then c :: ' ' :: d :: ctsSub5Go fuel rest
      else c :: ctsSub5Go fuel cs
    | [] => [c]

/-- `clean_text_spacing` from `local_multipliers_original.py`: the five
`re.sub` passes in source order. -/
def clean_text_spacing (s : String) : String :=
  let a := ctsPairGo Char.isLower (s.toList.length + 1) none s.toList
  let b := ctsPairGo Char.isUpper (a.length + 1) none a
  let c := ctsSub3Go (b.length + 1) b
  let d := ctsSub4Go (c.length + 1) c
  String.mk (ctsSub5Go (d.length + 1) d)

/-! ## Local Multiplier assembler (local_multipliers_original.py) -/

/-- `get_country_for_region`: US territories override the page country. -/
def us_territories : List String :=
  ["GUAM", "PUERTO RICO", "VIRGIN ISLANDS", "VIRGIN ISLANDS (U.S.)"]

def get_country_for_region (region_name default_country : String) : String :=
  if us_territories.any (fun t => strContains (pyUpper region_name) t) then
    "United States"
  else default_country

/-- One local-multiplier record (`multipliers.append({...})`). -/
structure LocalEntry where
  location : String
  city : Option String
  region : Option String
  country : String
  class_a : ℚ
  class_b : ℚ
  class_c : ℚ
  class_d : ℚ
  class_s : ℚ
  source_page : ℕ
  is_regional : Bool
deriving DecidableEq, Repr

/-- `str(cell).strip() if cell else ''`. -/
def cleanCell (c : String) : String := if c = "" then "" else pyTrim c

/-- Python truthiness of `current_region` (`None` and `''` are falsy). -/
def pyTruthy (o : Option String) : Bool :=
  match o with
  | none => false
  | some s => s ≠ ""

/-- Country scan over the first five table rows (`parse_table_data`). -/
def tableCountry (table : List (List String)) : String :=
  (table.take 5).foldl
    (fun country row =>
      if row.any (fun c => c ≠ "") then
        let rowText := pyUpper (joinSpace row)
        if strContains rowText "CANADA" then "Canada"
        else if strContains rowText "UNITED STATES" || strContains rowText "U.S." then
          "United States"
        else country
      else country)
    "Unknown"

/-- The numeric-cell classifier of `parse_table_data`: skip `%` cells,
parse, keep values in the 0.5–2.5 plausibility window. -/
def tableCellValue (cell : String) : Option ℚ :=
  if strContains cell "%" then none
  else
    match pyFloat cell with
    | none => none
    | some v => if mkRat 1 2 ≤ v ∧ v ≤ mkRat 5 2 then some v else none

/-- The numeric-cell scan of `parse_table_data`. -/
def tableExtractVals (cells : List String) : List ℚ :=
  cells.filterMap tableCellValue

/-- `multiplier_values[-5:]`. -/
def lastFive (vals : List ℚ) : List ℚ := vals.drop (vals.length - 5)

/-- The hard-coded region name list of `parse_table_data`. -/
def lmRegionList : List String :=
  ["ALBERTA", "BRITISH COLUMBIA", "ONTARIO", "QUEBEC", "MANITOBA",
   "SASKATCHEWAN", "YUKON", "NORTHWEST TERRITORY", "GUAM", "PUERTO RICO",
   "VIRGIN ISLANDS"]

/-- Region-level record constructor of `parse_table_data`. -/
def mkLocalRegional (name country : String) (cm : List ℚ) (page : ℕ) : LocalEntry :=
  { location := name, city := none, region := some name, country := country,
    class_a := cm.getD 0 0, class_b := cm.getD 1 0, class_c := cm.getD 2 0,
    class_d := cm.getD 3 0, class_s := cm.getD 4 0,
    source_page := page, is_regional := true }

/-- City-level record constructor of `parse_table_data`. -/
def mkLocalCity (name : String) (region : Option String) (country : String)
    (cm : List ℚ) (page : ℕ) : LocalEntry :=
  { location := if pyTruthy region then name ++ ", " ++ region.getD "" else name,
    city := some name, region := region, country := country,
    class_a := cm.getD 0 0, class_b := cm.getD 1 0, class_c := cm.getD 2 0,
    class_d := cm.getD 3 0, class_s := cm.getD 4 0,
    source_page := page, is_regional := false }

/-- The per-row body of `parse_table_data`'s main loop; the state is
`current_region`. -/
def lmTableRowStep (country : String) (page : ℕ) (st : Option String)
    (row : List String) : Option String × List LocalEntry :=
  if !(row.any (fun c => c ≠ "")) then (st, [])
  else
    let cleaned := row.map cleanCell
    let rowText := pyUpper (joinSpace cleaned)
    if ["CLASS", "MULTIPLIER", "APPLY TO"].any (fun k => strContains rowText k) then
      (st, [])
    else if ["TAX REMOVAL", "DEDUCTION", "EXAMPLE:"].any (fun k => strContains rowText k) then
      (st, [])
    else if strContains rowText "%" || cleaned.any (fun c => strContains c "%") then
      (st, [])
    else
      let location := cleaned.headD ""
      if location = "" then (st, [])
      else
        let vals := tableExtractVals (cleaned.drop 1)
        if 5 ≤ vals.length then
          let cm := lastFive vals
          if pyIsUpper location || lmRegionList.contains location then
            (some location, [mkLocalRegional location country cm page])
          else (st, [mkLocalCity location st country cm page])
        else (st, [])

/-- `parse_table_data(table, page_num)`. -/
def parse_table_data (table : List (List String)) (page : ℕ) : List LocalEntry :=
  (scanStep (lmTableRowStep (tableCountry table) page) none table).2

/-- One step of the value/label scan of a position-based line
(`parse_position_based_text`): the accumulator is
`(multiplier_values, location_parts, has_seen_text)`. -/
def posExtractStep (acc : List ℚ × List String × Bool) (part : String) :
    List ℚ × List String × Bool :=
  if strContains part "%" then acc
  else
    match pyFloat part with
    | some v =>
      if mkRat 1 2 ≤ v ∧ v ≤ mkRat 5 2 then
        if acc.2.2 || acc.2.1 ≠ [] then (acc.1 ++ [v], acc.2.1, acc.2.2)
        else acc
      else acc
    | none =>
      (acc.1, (if acc.1.length < 5 then acc.2.1 ++ [part] else acc.2.1), true)

/-- The value/label scan of a position-based line. -/
def posExtract (parts : List String) : List ℚ × List String × Bool :=
  parts.foldl posExtractStep ([], [], false)

/-- The look-ahead for a region header whose multipliers sit on the next line
(`parse_position_based_text`, `len(parts) < 6` branch). A `ValueError` in the
filtering comprehension (any unparseable token) aborts the whole attempt. -/
def posLookaheadRegion (dc : String) (page : ℕ) (cleanedLine : String)
    (next : Option String) : Option LocalEntry :=
  match next with
  | none => none
  | some nextLine =>
    let nextParts := pySplit (pyTrim nextLine)
    if 5 ≤ nextParts.length then
      if nextParts.all (fun p => (pyFloat p).isSome) then
        let nv := nextParts.filterMap (fun p =>
          match pyFloat p with
          | some v => if mkRat 1 2 ≤ v ∧ v ≤ mkRat 5 2 then some v else none
          | none => none)
        if 5 ≤ nv.length then
          some { location := cleanedLine, city := none, region := some cleanedLine,
                 country := get_country_for_region cleanedLine dc,
                 class_a := nv.getD (nv.length - 5) 0,
                 class_b := nv.getD (nv.length - 4) 0,
                 class_c := nv.getD (nv.length - 3) 0,
                 class_d := nv.getD (nv.length - 2) 0,
                 class_s := nv.getD (nv.length - 1) 0,
                 source_page := page, is_regional := true }
        else none
      else none
    else none

/-- Header/footer phrases skipped by the position-based line loop. -/
def posSkipPhrases : List String :=
  ["LOCAL MULTIPLIER", "SECTION 99", "MARSHALL", "APPLY TO",
   "TAX REMOVAL", "DEDUCTION", "EXAMPLE:", "CANADA", "UNITED STATES"]

/-- The per-line body of `parse_position_based_text`; the state is
`(current_region, parent_region)`, the input a line paired with the raw next
line (the only look-ahead the loop performs). -/
def posLineStep (dc : String) (page : ℕ) (st : Option String × Option String)
    (ln : String × Option String) :
    (Option String × Option String) × List LocalEntry :=
  let line0 := pyTrim ln.1
  if line0 = "" then (st, [])
  else
    let line := clean_text_spacing line0
    let lu := pyUpper line
    if posSkipPhrases.any (fun p => strContains lu p)
        || hasWordIn ["GST", "PST", "HST", "CLASS", "PAGE"] lu then (st, [])
    else if strContains line "%" then (st, [])
    else
      let parts := pySplit line
      if parts.length < 6 then
        let cleanedLine := clean_text_spacing (joinSpace parts)
        if pyIsUpper cleanedLine && 5 < cleanedLine.length then
          match posLookaheadRegion dc page cleanedLine ln.2 with
          | some e => ((some cleanedLine, st.2), [e])
          | none => (st, [])
        else (st, [])
      else
        let ext := posExtract parts
        if 5 ≤ ext.1.length then
          let locationName := clean_text_spacing (pyTrim (joinSpace ext.2.1))
          let vals := if 5 < ext.1.length then lastFive ext.1 else ext.1
          if locationName = "" || locationName.length < 3 then (st, [])
          else
            let cm := lastFive vals
            let cleanLocationName :=
              pyTrim (strReplace (strReplace locationName "(CONTINUED)" "") "(Continued)" "")
            let entryCountry := get_country_for_region cleanLocationName dc
            if pyIsUpper locationName then
              let isSubsection :=
                ["AREA", "REGION", "DISTRICT"].any
                  (fun k => strContains cleanLocationName k)
              let newSt :=
                if isSubsection && pyTruthy st.1 && st.1 ≠ some cleanLocationName then
                  (some cleanLocationName, st.1)
                else (some cleanLocationName, (none : Option String))
              (newSt, [mkLocalRegional cleanLocationName entryCountry cm page])
            else
              let cityCountry :=
                get_country_for_region (if pyTruthy st.1 then st.1.getD "" else "")
                  entryCountry
              (st, [mkLocalCity locationName st.1 cityCountry cm page])
        else (st, [])

/-- Per-column body of `parse_position_based_text` (`None`/empty crop text is
skipped; region state flows across columns). -/
def posColumnStep (dc : String) (page : ℕ) (st : Option String × Option String)
    (col : Option String) : (Option String × Option String) × List LocalEntry :=
  match col with
  | none => (st, [])
  | some text =>
    if text = "" then (st, [])
    else scanStep (posLineStep dc page) st (withNext (splitLines text))

/-- `parse_position_based_text(page, page_num)`, abstracted over the provider:
`page_text` is the page's full text (country detection) and `cols` the
cropped column texts. -/
def parse_position_based_text (page_text : String) (cols : List (Option String))
    (page : ℕ) : List LocalEntry :=
  let dc :=
    if strContains (pyUpper page_text) "CANADA" then "Canada"
    else if strContains (pyUpper page_text) "UNITED STATES" then "United States"
    else "Unknown"
  (scanStep (posColumnStep dc page) (none, none) cols).2

/-- The data the local-multiplier engine reads from one provider page. -/
structure LMPage where
  tables : List (List (List String))
  pageText : String
  columns : List (Option String)

/-- `parse_page_multipliers`: grid path if the provider found a table with
more than three rows, positional fallback otherwise. -/
def parse_page_multipliers (pg : LMPage) (page : ℕ) : List LocalEntry :=
  if pg.tables ≠ [] ∧ pg.tables.any (fun t => 3 < t.length) then
    (pg.tables.map (fun t => parse_table_data t page)).flatten
  else parse_position_based_text pg.pageText pg.columns page

/-- The result dictionary of `parse_local_multiplier_table`. -/
structure LMResult where
  success : Bool
  multipliers : List LocalEntry
  source_file : String
  pages_processed : String
  total_entries : ℕ
  errors : List String
deriving DecidableEq, Repr

/-- The page loop of `parse_local_multiplier_table`: pages
`start_page .. end_page` (1-indexed), each parsed with its display number. -/
def lmRangeRecords (doc : List LMPage) (sp ep : ℤ) : List LocalEntry :=
  ((((doc.enum).take ep.toNat).drop (sp.toNat - 1)).map
    (fun pr => parse_page_multipliers pr.2 (pr.1 + 1))).flatten

/-- `parse_local_multiplier_table(pdf_path, start_page, end_page)`; the
`Option` input is the outcome of `pdfplumber.open` (`none` =
`FileNotFoundError`). -/
def parse_local_multiplier_table (pdf : Option (List LMPage)) (path : String)
    (sp ep : ℤ) : LMResult :=
  let base : LMResult :=
    { success := false, multipliers := [], source_file := path,
      pages_processed := toString sp ++ "-" ++ toString ep,
      total_entries := 0, errors := [] }
  match pdf with
  | none => { base with errors := ["PDF file not found: " ++ path] }
  | some doc =>
    if sp < 1 ∨ (doc.length : ℤ) < ep then
      { base with
        errors := ["Invalid page range. PDF has " ++ toString doc.length ++ " pages."] }
    else
      let ms := lmRangeRecords doc sp ep
      { base with success := true, multipliers := ms, total_entries := ms.length }

/-! ## Current-Cost assembler (current_cost_original.py) -/

/-- One current-cost record. -/
structure CCEntry where
  method : String
  region : String
  building_class : String
  effective_date : String
  multiplier : ℚ
  source_page : ℕ
deriving DecidableEq, Repr

/-- Exactly `n` digits at the head of `cs`. -/
def digitsAt (n : ℕ) (cs : List Char) : Option (List Char × List Char) :=
  let d := cs.take n
  if d.length = n ∧ d.all Char.isDigit then some (d, cs.drop n) else none

/-- `(\d{1,2})/`: greedy month digits followed by a slash, with regex
backtracking (two digits first, then one). -/
def monthSlash (cs : List Char) : Option (List Char × List Char) :=
  match digitsAt 2 cs with
  | some (m, '/' :: r) => some (m, r)
  | _ =>
    match digitsAt 1 cs with
    | some (m, '/' :: r) => some (m, r)
    | _ => none

/-- `(\d{2,4})\)`: greedy year digits followed by a closing paren. -/
def yearClose (cs : List Char) : Option (List Char × List Char) :=
  match digitsAt 4 cs with
  | some (y, ')' :: r) => some (y, r)
  | _ =>
    match digitsAt 3 cs with
    | some (y, ')' :: r) => some (y, r)
    | _ =>
      match digitsAt 2 cs with
      | some (y, ')' :: r) => some (y, r)
      | _ => none

/-- A match of `\((\d{1,2})/(\d{2,4})\)` whose `\(` was just consumed. -/
def tryParenDate (cs : List Char) : Option (String × String × List Char) :=
  match monthSlash cs with
  | none => none
  | some (m, r) =>
    match yearClose r with
    | none => none
    | some (y, r2) => some (String.mk m, String.mk y, r2)

/-- `re.findall(r'\((\d{1,2})/(\d{2,4})\)', line)`: all non-overlapping
leftmost matches. -/
def findParenDates : ℕ → List Char → List (String × String)
  | 0, _ => []
  | _ + 1, [] => []
  | fuel + 1, c :: cs =>
    if c = '(' then
      match tryParenDate cs with
      | some (m, y, r) => (m, y) :: findParenDates fuel r
      | none => findParenDates fuel cs
    else findParenDates fuel cs

/-- Two-digit-year normalization (`'20'+y` below 50, `'19'+y` otherwise). -/
def normYear (y : String) : String :=
  if y.length = 2 then
    if digitsToNat y.toList < 50 then "20" ++ y else "19" ++ y
  else y

/-- Date accumulation from one line of the first pass of
`parse_single_table_text` (month leading zeros dropped by `int(month)`,
duplicates skipped). -/
def ccAddDates (acc : List String) (line : String) : List String :=
  (findParenDates line.toList.length line.toList).foldl
    (fun acc md =>
      let ds := toString (digitsToNat md.1.toList) ++ "/" ++ normYear md.2
      if acc.contains ds then acc else acc ++ [ds])
    acc

/-- The first pass of `parse_single_table_text`: accumulate effective dates,
stopping at the first region header once at least one date was seen. -/
def ccFirstPass (acc : List String) : List String → List String
  | [] => acc
  | l :: rest =>
    let line := pyTrim l
    if line = "" then ccFirstPass acc rest
    else
      let lu := pyUpper line
      if (["EASTERN", "CENTRAL", "WESTERN"].any (fun k => strContains lu k))
          && !acc.isEmpty then acc
      else ccFirstPass (ccAddDates acc line) rest

/-- The per-line region test of `find_next_region`. -/
def ccRegionAt (lu : String) : Option String :=
  if strContains lu "EASTERN" && !strContains lu "EFFECTIVE"
      && !(strContains lu "CENTRAL" && strContains lu "WESTERN") then some "Eastern"
  else if strContains lu "CENTRAL" && !strContains lu "EFFECTIVE"
      && !(strContains lu "EASTERN" && strContains lu "WESTERN") then some "Central"
  else if strContains lu "WESTERN" && !strContains lu "EFFECTIVE"
      && !(strContains lu "EASTERN" && strContains lu "CENTRAL") then some "Western"
  else none

/-- `find_next_region(start_idx, lines)`. -/
def find_next_region (lines : List String) (idx : ℕ) : Option String :=
  ((lines.drop (idx + 1)).filterMap (fun l => ccRegionAt (pyUpper l))).head?

/-- `re.sub(r'(EASTERN|CENTRAL|WESTERN)', '', line, flags=re.IGNORECASE)`. -/
def removeRegionGo : ℕ → List Char → List Char
  | 0, l => l
  | _ + 1, [] => []
  | fuel + 1, c :: cs =>
    let up := (c :: cs).map Char.toUpper
    if leadMatch "EASTERN".toList up || leadMatch "CENTRAL".toList up
        || leadMatch "WESTERN".toList up then
      removeRegionGo fuel ((c :: cs).drop 7)
    else c :: removeRegionGo fuel cs

def removeRegionWords (s : String) : String :=
  String.mk (removeRegionGo s.toList.length s.toList)

/-- `part.strip('()').replace(',', '')`. -/
def ccClean (part : String) : String :=
  strReplace (stripSet ['(', ')'] part) "," ""

/-- The token classifier of `parse_single_table_text`: clean, reject text
with letters, parse, keep values in the 0.5–2.0 window. -/
def ccTokenValue (part : String) : Option ℚ :=
  let cp := ccClean part
  if cp.toList.any Char.isAlpha then none
  else
    match pyFloat cp with
    | none => none
    | some v => if mkRat 1 2 ≤ v ∧ v ≤ 2 then some v else none

/-- The emission loop of `parse_single_table_text` for one accepted class
row: `for idx in range(min(len(values), len(dates)))`. -/
def ccEmitRow (method : String) (page : ℕ) (region cls : String)
    (vals : List ℚ) (dates : List String) : List CCEntry :=
  (List.range (min vals.length dates.length)).map (fun i =>
    { method := method, region := region, building_class := cls,
      effective_date := dates.getD i "", multiplier := vals.getD i 0,
      source_page := page })

/-- Header keywords skipped by the second pass of `parse_single_table_text`. -/
def ccSkipKw : List String :=
  ["CLASS", "MULTIPLIER", "SECTION", "APPLY", "COST", "EFFECTIVE", "PAGES"]

/-- `re.match(r'^[\d\s]+$', line) and len(line.split()) > 3`. -/
def ccDigitsRow (line : String) : Bool :=
  line ≠ "" && line.toList.all (fun c => c.isDigit || c.isWhitespace)
    && 3 < (pySplit line).length

/-- The region-label test of one line of the second pass of
`parse_single_table_text` (the all-three-regions header case is excluded
before this is consulted). -/
def ccRegionMatch (lu0 : String) : Option String :=
  if strContains lu0 "EASTERN" && !strContains lu0 "EFFECTIVE" then some "Eastern"
  else if strContains lu0 "CENTRAL" && !strContains lu0 "EFFECTIVE" then some "Central"
  else if strContains lu0 "WESTERN" && !strContains lu0 "EFFECTIVE" then some "Western"
  else none

/-- `any(lines[i].strip().startswith(('S ', 'D ')) for i in range(max(0, idx-3), idx))`. -/
def ccLookback (lines : List String) (idx : ℕ) : Bool :=
  ((List.range idx).drop (idx - 3)).any (fun i =>
    pyStartsWith (pyTrim (lines.getD i "")) "S "
      || pyStartsWith (pyTrim (lines.getD i "")) "D ")

/-- Resolution of the region an A/B class row is attributed to (the
look-ahead correction of `parse_single_table_text`). -/
def ccTarget (lines : List String) (idx : ℕ) (st1 : Option String)
    (cls : String) : Option String :=
  if (cls = "A" ∨ cls = "B") ∧ (st1 = none ∨ (0 < idx ∧ ccLookback lines idx)) then
    match find_next_region lines idx with
    | some r => some r
    | none => st1
  else st1

/-- The per-line body of the second pass of `parse_single_table_text`;
the state is `current_region`, the loop runs over line indices (the A/B
correction looks back three lines and ahead for the next region header). -/
def ccLineStep (method : String) (page : ℕ) (dates : List String)
    (lines : List String) (st : Option String) (idx : ℕ) :
    Option String × List CCEntry :=
  let line0 := pyTrim (lines.getD idx "")
  if line0 = "" then (st, [])
  else if ccSkipKw.any (fun k => strContains (pyUpper line0) k) then (st, [])
  else if ccDigitsRow line0 then (st, [])
  else if strContains (pyUpper line0) "EASTERN" && strContains (pyUpper line0) "CENTRAL"
      && strContains (pyUpper line0) "WESTERN" then (st, [])
  else
    let st1 := match ccRegionMatch (pyUpper line0) with
      | some r => some r
      | none => st
    let line1 := match ccRegionMatch (pyUpper line0) with
      | some _ => pyTrim (removeRegionWords line0)
      | none => line0
    if (ccRegionMatch (pyUpper line0)).isSome && line1 = "" then (st1, [])
    else if dates.isEmpty then (st1, [])
    else
      match pySplit line1 with
      | [] => (st1, [])
      | cls :: valueParts =>
        if !(["A", "B", "C", "D", "S"].contains cls) then (st1, [])
        else
          match ccTarget lines idx st1 cls with
          | none => (st1, [])
          | some region =>
            (st1, ccEmitRow method page region cls
              (valueParts.filterMap ccTokenValue) dates)

/-- `parse_single_table_text(text, method, page_num)`. -/
def parse_single_table_text (text : String) (method : String) (page : ℕ) :
    List CCEntry :=
  let lines := splitLines text
  let dates := ccFirstPass [] lines
  (scanStep (ccLineStep method page dates lines) none (List.range lines.length)).2

/-- First match of `re.search(r'\(?(\d{1,2})/(\d{2,4})\)?', cell)`:
greedy year digits with the optional closing paren always satisfiable. -/
def yearOpt (cs : List Char) : Option (List Char) :=
  match digitsAt 4 cs with
  | some (y, _) => some y
  | none =>
    match digitsAt 3 cs with
    | some (y, _) => some y
    | none =>
      match digitsAt 2 cs with
      | some (y, _) => some y
      | none => none

def gridDateSearch : ℕ → List Char → Option (String × String)
  | 0, _ => none
  | _ + 1, [] => none
  | fuel + 1, c :: cs =>
    let body := if c = '(' then cs else c :: cs
    match monthSlash body with
    | some (m, r) =>
      (match yearOpt r with
       | some y => some (String.mk m, String.mk y)
       | none => gridDateSearch fuel cs)
    | none => gridDateSearch fuel cs

def gridCellDate (cell : String) : Option (String × String) :=
  gridDateSearch (cell.toList.length + 1) cell.toList

/-- The grid-path cell classifier of `parse_multiplier_table`: values in the
0.8–1.2 window. -/
def ccGridCellValue (cell : String) : Option ℚ :=
  if cell = "" then none
  else
    match pyFloat cell with
    | none => none
    | some v => if mkRat 4 5 ≤ v ∧ v ≤ mkRat 6 5 then some v else none

/-- The emission loop of `parse_multiplier_table` for one accepted class
row: every accepted value is emitted, with `Column_{i+1}` placeholder dates
past the end of the accumulated date list. -/
def ccGridEmitRow (method : String) (page : ℕ) (region cls : String)
    (vals : List ℚ) (dates : List String) : List CCEntry :=
  (List.range vals.length).map (fun i =>
    { method := method, region := region, building_class := cls,
      effective_date :=
        if i < dates.length then dates.getD i ""
        else "Column_" ++ toString (i + 1),
      multiplier := vals.getD i 0, source_page := page })

/-- The per-row body of `parse_multiplier_table`; the state is
`(current_region, effective_dates)`. -/
def ccGridRowStep (method : String) (page : ℕ)
    (st : Option String × List String) (row : List String) :
    (Option String × List String) × List CCEntry :=
  if !(row.any (fun c => c ≠ "")) then (st, [])
  else
    let cleaned := row.map cleanCell
    let rowText := pyUpper (joinSpace cleaned)
    if !(cleaned.any (fun c => c ≠ "")) then (st, [])
    else if strContains rowText "EFFECTIVE DATE"
        || cleaned.any (fun c => c ≠ "" && strContains c "/") then
      ((st.1, st.2 ++ cleaned.filterMap (fun c =>
          if c = "" then none
          else (gridCellDate c).map (fun md => md.1 ++ "/" ++ normYear md.2))), [])
    else if strContains rowText "EASTERN" then ((some "Eastern", st.2), [])
    else if strContains rowText "CENTRAL" then ((some "Central", st.2), [])
    else if strContains rowText "WESTERN" then ((some "Western", st.2), [])
    else if ["CLASS", "MULTIPLIER", "SECTION", "UNIT-IN-PLACE"].any
        (fun k => strContains rowText k) then (st, [])
    else
      match cleaned with
      | [] => (st, [])
      | cls :: rest =>
        if ["A", "B", "C", "D", "S"].contains cls then
          match st.1 with
          | some region =>
            (st, ccGridEmitRow method page region cls
              (rest.filterMap ccGridCellValue) st.2)
          | none => (st, [])
        else (st, [])

/-- `parse_multiplier_table(table, method, page_num)`. -/
def parse_multiplier_table (table : List (List String)) (method : String)
    (page : ℕ) : List CCEntry :=
  (scanStep (ccGridRowStep method page) (none, []) table).2

/-- The data the current-cost engine reads from one provider page:
detected grid tables and the two cropped half-page texts. -/
structure CCPage where
  tables : List (List (List String))
  leftText : Option String
  rightText : Option String

/-- `parse_region_based_multipliers(page, page_num)`. -/
def parse_region_based_multipliers (pg : CCPage) (page : ℕ) : List CCEntry :=
  (match pg.leftText with
   | some t => if t ≠ "" then parse_single_table_text t "calculator" page else []
   | none => []) ++
  (match pg.rightText with
   | some t => if t ≠ "" then parse_single_table_text t "segregated" page else []
   | none => [])

/-- `parse_page_current_cost(page, page_text, page_num)`. -/
def parse_page_current_cost (pg : CCPage) (page : ℕ) : List CCEntry :=
  if pg.tables.isEmpty || pg.tables.all (fun t => t.length < 2) then
    parse_region_based_multipliers pg page
  else
    let ms := (pg.tables.enum.map (fun pr =>
      if pr.2.length < 2 then []
      else
        let firstRow := pyUpper (joinSpace (pr.2.headD []))
        let method :=
          if strContains firstRow "CALCULATOR" then "calculator"
          else if strContains firstRow "SEGREGATED" then "segregated"
          else if pr.1 = 0 then "calculator" else "segregated"
        parse_multiplier_table pr.2 method page)).flatten
    if ms.isEmpty then parse_region_based_multipliers pg page else ms

/-- The result dictionary of `parse_current_cost_multiplier_table`. -/
structure CCResult where
  success : Bool
  multipliers : List CCEntry
  source_file : String
  pages_processed : String
  total_entries : ℕ
  errors : List String

def ccRangeRecords (doc : List CCPage) (sp ep : ℤ) : List CCEntry :=
  ((((doc.enum).take ep.toNat).drop (sp.toNat - 1)).map
    (fun pr => parse_page_current_cost pr.2 (pr.1 + 1))).flatten

/-- `parse_current_cost_multiplier_table(pdf_path, start_page, end_page)`;
the invalid-range `ValueError` is caught by the generic `except Exception`
handler, hence the `Unexpected error:` prefix. -/
def parse_current_cost_multiplier_table (pdf : Option (List CCPage))
    (path : String) (sp ep : ℤ) : CCResult :=
  let base : CCResult :=
    { success := false, multipliers := [], source_file := path,
      pages_processed := toString sp ++ "-" ++ toString ep,
      total_entries := 0, errors := [] }
  match pdf with
  | none => { base with errors := ["PDF file not found: " ++ path] }
  | some doc =>
    if sp < 1 ∨ (doc.length : ℤ) < ep then
      { base with
        errors := ["Unexpected error: Invalid page range. PDF has "
          ++ toString doc.length ++ " pages."] }
    else
      let ms := ccRangeRecords doc sp ep
      { base with success := true, multipliers := ms, total_entries := ms.length }

/-! ## Story-Height assembler (story_height_original.py) -/

/-- A positioned word from `page.extract_words`. -/
structure PdfWord where
  text : String
  x0 : ℚ
  top : ℚ
deriving DecidableEq, Repr

/-- One story-height record. -/
structure SHEntry where
  height_meters : ℚ
  height_feet : ℤ
  sqft_multiplier : ℚ
  cuft_multiplier : ℚ
deriving DecidableEq, Repr

/-- `create_entry(nums)`: validate the quadruple
(metres, feet, sq-multiplier, cu-multiplier) and round. -/
def create_entry (nums : List ℚ) : Option SHEntry :=
  if nums.length < 4 then none
  else
    let meters := nums.getD 0 0
    let feet := nums.getD 1 0
    let sq := nums.getD 2 0
    let cu := nums.getD 3 0
    if !(mkRat 3 2 ≤ meters ∧ meters ≤ 10) then none
    else if !(5 ≤ feet ∧ feet ≤ 30) then none
    else if !(mkRat 2 5 ≤ sq ∧ sq ≤ 2) then none
    else if !(mkRat 2 5 ≤ cu ∧ cu ≤ 2) then none
    else some
      { height_meters := roundTo 2 meters, height_feet := pyInt feet,
        sqft_multiplier := roundTo 3 sq, cuft_multiplier := roundTo 3 cu }

/-- First header scan of `parse_story_height_data`. -/
def shFirstY (words : List PdfWord) (page_text : String) : Option ℚ :=
  (words.find? (fun w =>
    strContains (pyUpper w.text) "STORY"
      && strContains (pyUpper page_text) "HEIGHT")).map (fun w => w.top)

/-- Second (overriding) header scan of `parse_story_height_data`. -/
def shSecondY (words : List PdfWord) : Option ℚ :=
  (words.find? (fun w =>
    pyUpper w.text = "STORY" &&
      (let nearby := words.filter (fun v => qabs (qsub v.top w.top) < 10)
       let nt := joinSpace (nearby.map (fun v => pyUpper v.text))
       strContains nt "HEIGHT" && strContains nt "MULTIPLIER"))).map
    (fun w => w.top)

/-- `round(word['top'] / 10) * 10`, the row-bucketing key. -/
def shKey (t : ℚ) : ℤ := roundHalfEven (qdivTen t) * 10

/-- The numeric scan of one bucketed row (after the in-row x-sort). -/
def shRowNums (row : List PdfWord) : List (ℚ × ℚ) :=
  row.filterMap (fun w =>
    match pyFloat (strReplace (strReplace w.text "," "") "(base)" "") with
    | some n => some (n, w.x0)
    | none => none)

/-- Records contributed by one bucketed row: the left and right column
quadruples, each validated by `create_entry`. -/
def shRowRecords (row : List PdfWord) : List SHEntry :=
  let sorted := stableSortBy (fun a b : PdfWord => decide (a.x0 ≤ b.x0)) row
  let numbers := shRowNums sorted
  if 4 ≤ numbers.length then
    let left := (numbers.filter (fun p => p.2 < 400)).map (fun p => p.1)
    let right := (numbers.filter (fun p => 400 ≤ p.2)).map (fun p => p.1)
    (if 4 ≤ left.length then (create_entry (left.take 4)).toList else []) ++
      (if 4 ≤ right.length then (create_entry (right.take 4)).toList else [])
  else []

/-- `parse_story_height_data(page, page_text)` over the extracted words. -/
def parse_story_height_data (words : List PdfWord) (page_text : String) :
    List SHEntry :=
  let yOpt := match shSecondY words with
    | some y => some y
    | none => shFirstY words page_text
  match yOpt with
  | none => []
  | some y =>
    if y = 0 then []
    else
      let tws := words.filter (fun w => qadd y 30 < w.top)
      let keys := stableSortBy (fun a b : ℤ => decide (a ≤ b))
        (firstKeys (tws.map (fun w => shKey w.top)))
      let ms := (keys.map (fun k =>
        shRowRecords (tws.filter (fun w => shKey w.top = k)))).flatten
      stableSortBy (fun a b : SHEntry => decide (a.height_feet ≤ b.height_feet)) ms

/-- `re.search(r'SECTION\s+(\d+)\s+PAGE\s+(\d+)', page_text, re.IGNORECASE)`. -/
def sectionInfoGo : ℕ → List Char → Option (String × String)
  | 0, _ => none
  | _ + 1, [] => none
  | fuel + 1, c :: cs =>
    let l := c :: cs
    if leadMatch "SECTION".toList (l.map Char.toUpper) then
      let r1 := l.drop 7
      let ws1 := r1.takeWhile (fun ch => ch.isWhitespace)
      let r2 := r1.dropWhile (fun ch => ch.isWhitespace)
      let d1 := r2.takeWhile Char.isDigit
      let r3 := r2.dropWhile Char.isDigit
      if ws1 ≠ [] ∧ d1 ≠ [] then
        let ws2 := r3.takeWhile (fun ch => ch.isWhitespace)
        let r4 := r3.dropWhile (fun ch => ch.isWhitespace)
        if ws2 ≠ [] ∧ leadMatch "PAGE".toList (r4.map Char.toUpper) then
          let r5 := r4.drop 4
          let ws3 := r5.takeWhile (fun ch => ch.isWhitespace)
          let r6 := r5.dropWhile (fun ch => ch.isWhitespace)
          let d2 := r6.takeWhile Char.isDigit
          if ws3 ≠ [] ∧ d2 ≠ [] then some (String.mk d1, String.mk d2)
          else sectionInfoGo fuel cs
        else sectionInfoGo fuel cs
      else sectionInfoGo fuel cs
    else sectionInfoGo fuel cs

/-- `extract_section_info(page_text)`. -/
def extract_section_info (page_text : String) : String × String :=
  match sectionInfoGo (page_text.toList.length + 1) page_text.toList with
  | some sp => sp
  | none => ("", "")

/-- The data the story-height engine reads from one provider page. -/
structure SHPage where
  words : List PdfWord
  pageText : String

/-- The result dictionary of `parse_story_height_table`. -/
structure SHResult where
  success : Bool
  «section» : String
  section_page : String
  pdf_page : ℤ
  multipliers : List SHEntry
  errors : List String

/-- `parse_story_height_table(pdf_path, pdf_page)`; the invalid-page
`ValueError` is caught by the generic `except Exception` handler. -/
def parse_story_height_table (pdf : Option (List SHPage)) (path : String)
    (page : ℤ) : SHResult :=
  let base : SHResult :=
    { success := false, «section» := "", section_page := "", pdf_page := page,
      multipliers := [], errors := [] }
  match pdf with
  | none => { base with errors := ["PDF file not found: " ++ path] }
  | some doc =>
    if page < 1 ∨ (doc.length : ℤ) < page then
      { base with
        errors := ["Unexpected error: Invalid page. PDF has "
          ++ toString doc.length ++ " pages."] }
    else
      let pg := doc.getD (page.toNat - 1) { words := [], pageText := "" }
      let si := extract_section_info pg.pageText
      let ms := parse_story_height_data pg.words pg.pageText
      if ms.isEmpty then
        { base with
            «section» := si.1
            section_page := si.2
            errors := ["No multipliers found on page"] }
      else
        { base with
            success := true
            «section» := si.1
            section_page := si.2
            multipliers := ms }

/-! ## Floor-Area/Perimeter assembler (floor_area_perimeter_original.py) -/

/-- One floor-area/perimeter record. -/
structure FapEntry where
  floor_area_sqft : ℤ
  perimeter_ft : ℤ
  multiplier : ℚ
deriving DecidableEq, Repr

/-- Replace the first element satisfying `p` (in-place dict update). -/
def updateFirst (p : α → Bool) (f : α → α) : List α → List α
  | [] => []
  | x :: xs => if p x then f x :: xs else x :: updateFirst p f xs

/-- The header scan of `parse_floor_area_perimeter_data`: the FLOOR
AREA/PERIMETER header keeps updating `table_start_y` (no break); the first
STORY HEIGHT header fixes `table_end_y` and breaks. -/
def fapHeaderGo (all : List PdfWord) :
    Option ℚ → List PdfWord → Option ℚ × Option ℚ
  | startY, [] => (startY, none)
  | startY, w :: rest =>
    let t := pyUpper w.text
    let startY2 :=
      if strContains t "PERIMETER" then
        let nearby := all.filter (fun v => qabs (qsub v.top w.top) < 15)
        let nt := joinSpace (nearby.map (fun v => pyUpper v.text))
        if strContains nt "FLOOR" && strContains nt "MULTIPLIER" then some w.top
        else startY
      else startY
    if t = "STORY" then
      let nearby := all.filter (fun v => qabs (qsub v.top w.top) < 10)
      let nt := joinSpace (nearby.map (fun v => pyUpper v.text))
      if strContains nt "HEIGHT" && strContains nt "MULTIPLIER" then
        (startY2, some w.top)
      else fapHeaderGo all startY2 rest
    else fapHeaderGo all startY2 rest

/-- Merge one bucketed row key into the accumulated merged rows: extend the
first existing row within 3px, else append a new row. -/
def fapMergeRow (acc : List (ℤ × List PdfWord)) (y : ℤ) (ws : List PdfWord) :
    List (ℤ × List PdfWord) :=
  if acc.any (fun pr => |y - pr.1| ≤ 3) then
    updateFirst (fun pr => |y - pr.1| ≤ 3) (fun pr => (pr.1, pr.2 ++ ws)) acc
  else acc ++ [(y, ws)]

/-- Known perimeter breakpoints (ft). -/
def perimeter_values_ft : List ℤ :=
  [160, 180, 200, 250, 300, 350, 400, 500, 600, 700, 800, 1000, 1200, 1400,
   1600, 2000]

/-- Known floor-area breakpoints (sq ft). -/
def floor_area_values_ft : List ℤ :=
  [1500, 2000, 2500, 3000, 4000, 5000, 6000, 7000, 8000, 9000, 10000, 12000,
   14000, 16000, 18000, 20000, 24000, 28000, 32000, 36000, 40000]

/-- Dict assignment `positions[num] = x0`: update in place or append. -/
def upsertPos (acc : List (ℤ × ℚ)) (k : ℤ) (v : ℚ) : List (ℤ × ℚ) :=
  if acc.any (fun p => p.1 = k) then
    updateFirst (fun p => p.1 = k) (fun p => (p.1, v)) acc
  else acc ++ [(k, v)]

/-- Calibration of perimeter column x-positions from the first five merged
rows. -/
def fapColPositions (rows : List (ℤ × List PdfWord)) : List (ℤ × ℚ) :=
  (rows.take 5).foldl
    (fun acc row =>
      (stableSortBy (fun a b : PdfWord => decide (a.x0 ≤ b.x0)) row.2).foldl
        (fun acc w =>
          let text := pyTrim (strReplace w.text "," "")
          match pyFloat text with
          | none => acc
          | some v =>
            let n := pyInt v
            if perimeter_values_ft.contains n then upsertPos acc n w.x0
            else acc)
        acc)
    []

/-- One candidate column of the nearest-column fold of
`parse_floor_area_perimeter_data` (`best_perimeter`, `best_dist`):
threshold 40px, strict improvement. -/
def fapBestStep (x : ℚ) (best : Option (ℤ × ℚ)) (pc : ℤ × ℚ) :
    Option (ℤ × ℚ) :=
  let dist := qabs (qsub x pc.2)
  match best with
  | none => if dist < 40 then some (pc.1, dist) else none
  | some (bp, bd) =>
    if dist < bd ∧ dist < 40 then some (pc.1, dist) else some (bp, bd)

/-- The nearest-column fold of `parse_floor_area_perimeter_data`. -/
def fapBest (cols : List (ℤ × ℚ)) (x : ℚ) : Option (ℤ × ℚ) :=
  cols.foldl (fapBestStep x) none

/-- `if best_perimeter:` (Python truthiness of an `Optional[int]`). -/
def fapAssign (cols : List (ℤ × ℚ)) (x : ℚ) : Option ℤ :=
  match fapBest cols x with
  | some (p, _) => if p ≠ 0 then some p else none
  | none => none

/-- Floor-area breakpoint carried by one word, if any. -/
def fapAreaOfWord (w : PdfWord) : Option ℤ :=
  let text := pyTrim (strReplace w.text "," "")
  match pyFloat text with
  | none => none
  | some v =>
    let n := pyInt v
    if floor_area_values_ft.contains n then some n else none

/-- Record contributed by one in-row word: placeholder cells dropped,
value parsed and range-checked, column assigned by proximity. -/
def fapWordRecord (cols : List (ℤ × ℚ)) (fa : ℤ) (w : PdfWord) :
    Option FapEntry :=
  let text := pyTrim (strReplace w.text "," "")
  if text = "---" ∨ text = "----" ∨ text = "--" ∨ text = "" then none
  else
    match pyFloat text with
    | none => none
    | some num =>
      if mkRat 4 5 ≤ num ∧ num ≤ mkRat 3 2 then
        match fapAssign cols w.x0 with
        | some p =>
          some { floor_area_sqft := fa, perimeter_ft := p,
                 multiplier := roundTo 3 num }
        | none => none
      else none

/-- Records contributed by one merged row. -/
def fapRowRecords (cols : List (ℤ × ℚ)) (row : List PdfWord) : List FapEntry :=
  let sorted := stableSortBy (fun a b : PdfWord => decide (a.x0 ≤ b.x0)) row
  match ((sorted.take 5).filterMap fapAreaOfWord).head? with
  | none => []
  | some fa => sorted.filterMap (fapWordRecord cols fa)

/-- The duplicate-removal pass over `(floor_area, perimeter)` keys
(first occurrence wins). -/
def fapDedupGo (seen : List (ℤ × ℤ)) : List FapEntry → List FapEntry
  | [] => []
  | m :: rest =>
    if seen.contains (m.floor_area_sqft, m.perimeter_ft) then fapDedupGo seen rest
    else m :: fapDedupGo ((m.floor_area_sqft, m.perimeter_ft) :: seen) rest

def fapDedup (l : List FapEntry) : List FapEntry := fapDedupGo [] l

/-- The dictionary returned by `parse_floor_area_perimeter_data`. -/
structure FapData where
  perimeter_values : List ℤ
  floor_area_values : List ℤ
  multipliers : List FapEntry
deriving DecidableEq, Repr

/-- `parse_floor_area_perimeter_data(page, page_text)` over the extracted
words. -/
def parse_floor_area_perimeter_data (words : List PdfWord) : Option FapData :=
  let hdr := fapHeaderGo words none words
  match hdr.1 with
  | none => none
  | some startY =>
    if startY = 0 then none
    else
      let endTruthy := match hdr.2 with
        | some e => decide (e ≠ 0)
        | none => false
      let tws := words.filter (fun w =>
        qadd startY 20 < w.top && !(endTruthy && qsub (hdr.2.getD 0) 10 ≤ w.top))
      let keys := stableSortBy (fun a b : ℤ => decide (a ≤ b))
        (firstKeys (tws.map (fun w => roundHalfEven w.top)))
      let merged := keys.foldl
        (fun acc y => fapMergeRow acc y (tws.filter (fun w => roundHalfEven w.top = y)))
        []
      let rows := stableSortBy
        (fun a b : ℤ × List PdfWord => decide (a.1 ≤ b.1)) merged
      let cols := fapColPositions rows
      let uniq := fapDedup ((rows.map (fun r => fapRowRecords cols r.2)).flatten)
      if uniq.isEmpty then none
      else some
        { perimeter_values := perimeter_values_ft,
          floor_area_values := floor_area_values_ft, multipliers := uniq }

/-- The data the floor-area engine reads from one provider page. -/
structure FapPage where
  words : List PdfWord
  pageText : String

/-- The result dictionary of `parse_area_perimeter_table`. -/
structure FapResult where
  success : Bool
  «section» : String
  section_page : String
  pdf_page : ℤ
  perimeter_values : List ℤ
  floor_area_values : List ℤ
  multipliers : List FapEntry
  errors : List String

/-- `parse_area_perimeter_table(pdf_path, pdf_page)`. -/
def parse_area_perimeter_table (pdf : Option (List FapPage)) (path : String)
    (page : ℤ) : FapResult :=
  let base : FapResult :=
    { success := false, «section» := "", section_page := "", pdf_page := page,
      perimeter_values := [], floor_area_values := [], multipliers := [],
      errors := [] }
  match pdf with
  | none => { base with errors := ["PDF file not found: " ++ path] }
  | some doc =>
    if page < 1 ∨ (doc.length : ℤ) < page then
      { base with
        errors := ["Unexpected error: Invalid page. PDF has "
          ++ toString doc.length ++ " pages."] }
    else
      let pg := doc.getD (page.toNat - 1) { words := [], pageText := "" }
      let si := extract_section_info pg.pageText
      match parse_floor_area_perimeter_data pg.words with
      | some d =>
        { base with
            success := true
            «section» := si.1
            section_page := si.2
            perimeter_values := d.perimeter_values
            floor_area_values := d.floor_area_values
            multipliers := d.multipliers }
      | none =>
        { base with
            «section» := si.1
            section_page := si.2
            errors := ["No table data found"] }

/-- Specification of the nearest-column fold's accumulator after the
candidates in `S` have been examined: `none` means every candidate so far
is at distance ≥ 40 from `x`; `some (p, d)` means `p` is a candidate seen
at minimal distance `d < 40`. -/
def fapBestInv (x : ℚ) (S : List (ℤ × ℚ)) : Option (ℤ × ℚ) → Prop
  | none => ∀ pc ∈ S, 40 ≤ qabs (qsub x pc.2)
  | some pd => pd.2 < 40 ∧ (∃ px, (pd.1, px) ∈ S ∧ pd.2 = qabs (qsub x px)) ∧
      ∀ pc ∈ S, pd.2 ≤ qabs (qsub x pc.2)

/-! ## Helper lemmas -/

theorem mkRat_half : (mkRat 1 2 : ℚ) = 1 / 2 := by
  rw [Rat.mkRat_eq_div]
  norm_num

theorem qsub_floor_eq (q : ℚ) : qsub q (mkRat ⌊q⌋ 1) = q - ⌊q⌋ := by
  rw [qsub_eq]
  congr 1
  rw [Rat.mkRat_eq_div]
  norm_num

theorem roundHalfEven_cases (q : ℚ) :
    roundHalfEven q = ⌊q⌋ ∨
      (roundHalfEven q = ⌊q⌋ + 1 ∧ 1 / 2 ≤ q - ⌊q⌋) := by
  unfold roundHalfEven
  dsimp only
  rw [qsub_floor_eq, mkRat_half]
  by_cases h1 : q - (⌊q⌋ : ℚ) < 1 / 2
  · left
    rw [if_pos h1]
  · rw [if_neg h1]
    by_cases h2 : (1 : ℚ) / 2 < q - ⌊q⌋
    · right
      rw [if_pos h2]
      exact ⟨rfl, by linarith [not_lt.mp h1]⟩
    · rw [if_neg h2]
      by_cases h3 : ⌊q⌋ % 2 = 0
      · left
        rw [if_pos h3]
      · right
        rw [if_neg h3]
        exact ⟨rfl, by linarith [not_lt.mp h1]⟩

theorem le_roundHalfEven {m : ℤ} {q : ℚ} (h : (m : ℚ) ≤ q) :
    m ≤ roundHalfEven q := by
  have hm : m ≤ ⌊q⌋ := Int.le_floor.mpr h
  rcases roundHalfEven_cases q with h1 | ⟨h1, -⟩ <;> omega

theorem roundHalfEven_le {n : ℤ} {q : ℚ} (h : q ≤ (n : ℚ)) :
    roundHalfEven q ≤ n := by
  have hf : ⌊q⌋ ≤ n := by
    have h2 := Int.floor_le_floor h
    simpa using h2
  rcases roundHalfEven_cases q with h1 | ⟨h1, h2⟩
  · omega
  · have h3 : (⌊q⌋ : ℚ) < (n : ℚ) := by
      have := Int.floor_le q
      linarith
    have h4 : ⌊q⌋ < n := by exact_mod_cast h3
    omega

theorem roundTo_mem {k : ℕ} {q : ℚ} {m n : ℤ}
    (h1 : (m : ℚ) ≤ q * 10 ^ k) (h2 : q * 10 ^ k ≤ (n : ℚ)) :
    (m : ℚ) / 10 ^ k ≤ roundTo k q ∧ roundTo k q ≤ (n : ℚ) / 10 ^ k := by
  have hp : (0 : ℚ) < 10 ^ k := by positivity
  have c1 : (m : ℚ) ≤ (roundHalfEven (q * 10 ^ k) : ℚ) := by
    exact_mod_cast le_roundHalfEven h1
  have c2 : ((roundHalfEven (q * 10 ^ k)) : ℚ) ≤ (n : ℚ) := by
    exact_mod_cast roundHalfEven_le h2
  have hr : roundTo k q = (roundHalfEven (q * 10 ^ k) : ℚ) / 10 ^ k := by
    rw [roundTo, qmulPow10_eq, Rat.mkRat_eq_div]
    push_cast
    rfl
  rw [hr]
  constructor
  · gcongr
  · gcongr

theorem roundTo_range {k : ℕ} {q lo hi : ℚ} {m n : ℤ}
    (hm : lo = (m : ℚ) / 10 ^ k) (hn : hi = (n : ℚ) / 10 ^ k)
    (h1 : lo ≤ q) (h2 : q ≤ hi) :
    lo ≤ roundTo k q ∧ roundTo k q ≤ hi := by
  have hp : (0 : ℚ) < 10 ^ k := by positivity
  have h1m : (m : ℚ) ≤ q * 10 ^ k := by
    rw [hm] at h1
    have := mul_le_mul_of_nonneg_right h1 (le_of_lt hp)
    calc (m : ℚ) = (m : ℚ) / 10 ^ k * 10 ^ k := by field_simp
    _ ≤ q * 10 ^ k := this
  have h2m : q * 10 ^ k ≤ (n : ℚ) := by
    rw [hn] at h2
    have := mul_le_mul_of_nonneg_right h2 (le_of_lt hp)
    calc q * 10 ^ k ≤ (n : ℚ) / 10 ^ k * 10 ^ k := this
    _ = (n : ℚ) := by field_simp
  have := roundTo_mem h1m h2m
  rw [hm, hn]
  exact this

theorem pyInt_range {q : ℚ} {m n : ℤ} (h0 : (0 : ℚ) ≤ (m : ℚ))
    (h1 : (m : ℚ) ≤ q) (h2 : q ≤ (n : ℚ)) : m ≤ pyInt q ∧ pyInt q ≤ n := by
  have hq : 0 ≤ q := le_trans h0 h1
  unfold pyInt
  rw [if_pos hq]
  refine ⟨Int.le_floor.mpr h1, ?_⟩
  have h3 := Int.floor_le_floor h2
  simpa using h3

theorem getD_mem {l : List α} {i : ℕ} (h : i < l.length) (d : α) :
    l.getD i d ∈ l := by
  rw [List.getD_eq_getElem l d h]
  exact List.getElem_mem h

/-! ## Range properties of the classifiers -/

/-- The documented plausibility range of a local-multiplier record. -/
def lmInRange (r : LocalEntry) : Prop :=
  (mkRat 1 2 ≤ r.class_a ∧ r.class_a ≤ mkRat 5 2) ∧
  (mkRat 1 2 ≤ r.class_b ∧ r.class_b ≤ mkRat 5 2) ∧
  (mkRat 1 2 ≤ r.class_c ∧ r.class_c ≤ mkRat 5 2) ∧
  (mkRat 1 2 ≤ r.class_d ∧ r.class_d ≤ mkRat 5 2) ∧
  (mkRat 1 2 ≤ r.class_s ∧ r.class_s ≤ mkRat 5 2)

/-- The documented plausibility range of a current-cost record. -/
def ccInRange (r : CCEntry) : Prop :=
  mkRat 1 2 ≤ r.multiplier ∧ r.multiplier ≤ mkRat 5 2

/-- The documented plausibility ranges of a story-height record. -/
def shInRange (e : SHEntry) : Prop :=
  (mkRat 3 2 ≤ e.height_meters ∧ e.height_meters ≤ 10) ∧
  (5 ≤ e.height_feet ∧ e.height_feet ≤ 30) ∧
  (mkRat 2 5 ≤ e.sqft_multiplier ∧ e.sqft_multiplier ≤ 2) ∧
  (mkRat 2 5 ≤ e.cuft_multiplier ∧ e.cuft_multiplier ≤ 2)

/-- The documented plausibility range of a floor-area/perimeter record. -/
def fapInRange (r : FapEntry) : Prop :=
  mkRat 4 5 ≤ r.multiplier ∧ r.multiplier ≤ mkRat 3 2

theorem tableCellValue_range {cell : String} {v : ℚ}
    (h : tableCellValue cell = some v) : mkRat 1 2 ≤ v ∧ v ≤ mkRat 5 2 := by
  unfold tableCellValue at h
  split at h
  · simp at h
  · split at h
    · simp at h
    · split at h
      · rename_i hc
        injection h with h
        subst h
        exact hc
      · simp at h

theorem tableExtractVals_range {cells : List String} {v : ℚ}
    (h : v ∈ tableExtractVals cells) : mkRat 1 2 ≤ v ∧ v ≤ mkRat 5 2 := by
  rw [tableExtractVals, List.mem_filterMap] at h
  obtain ⟨c, -, hc⟩ := h
  exact tableCellValue_range hc

theorem posExtractStep_vals {acc : List ℚ × List String × Bool} {part : String}
    {v : ℚ} (h : v ∈ (posExtractStep acc part).1) :
    v ∈ acc.1 ∨ (mkRat 1 2 ≤ v ∧ v ≤ mkRat 5 2) := by
  unfold posExtractStep at h
  split at h
  · exact Or.inl h
  · split at h
    · rename_i w hw
      split at h
      · rename_i hrange
        split at h
        · rw [List.mem_append] at h
          rcases h with h | h
          · exact Or.inl h
          · simp at h
            subst h
            exact Or.inr hrange
        · exact Or.inl h
      · exact Or.inl h
    · exact Or.inl h

theorem posExtract_vals {parts : List String} {v : ℚ}
    (h : v ∈ (posExtract parts).1) : mkRat 1 2 ≤ v ∧ v ≤ mkRat 5 2 := by
  have main : ∀ (ps : List String) (acc : List ℚ × List String × Bool),
      (∀ w ∈ acc.1, mkRat 1 2 ≤ w ∧ w ≤ mkRat 5 2) →
      ∀ w ∈ (ps.foldl posExtractStep acc).1, mkRat 1 2 ≤ w ∧ w ≤ mkRat 5 2 := by
    intro ps
    induction ps with
    | nil => exact fun acc hacc w hw => hacc w hw
    | cons p ps ih =>
      intro acc hacc w hw
      refine ih (posExtractStep acc p) ?_ w hw
      intro u hu
      rcases posExtractStep_vals hu with h' | h'
      · exact hacc u h'
      · exact h'
  exact main parts ([], [], false) (by intro w hw; simp at hw) v h

theorem ccTokenValue_range {part : String} {v : ℚ}
    (h : ccTokenValue part = some v) : mkRat 1 2 ≤ v ∧ v ≤ 2 := by
  unfold ccTokenValue at h
  dsimp only at h
  split at h
  · simp at h
  · split at h
    · simp at h
    · split at h
      · rename_i hc
        injection h with h
        subst h
        exact hc
      · simp at h

theorem ccGridCellValue_range {cell : String} {v : ℚ}
    (h : ccGridCellValue cell = some v) : mkRat 4 5 ≤ v ∧ v ≤ mkRat 6 5 := by
  unfold ccGridCellValue at h
  split at h
  · simp at h
  · split at h
    · simp at h
    · split at h
      · rename_i hc
        injection h with h
        subst h
        exact hc
      · simp at h

theorem lastFive_length {vals : List ℚ} (h : 5 ≤ vals.length) :
    (lastFive vals).length = 5 := by
  simp only [lastFive, List.length_drop]
  omega

theorem lastFive_getD_range {vals : List ℚ} (h5 : 5 ≤ vals.length)
    (hv : ∀ v ∈ vals, mkRat 1 2 ≤ v ∧ v ≤ mkRat 5 2) {i : ℕ} (hi : i < 5) :
    mkRat 1 2 ≤ (lastFive vals).getD i 0 ∧ (lastFive vals).getD i 0 ≤ mkRat 5 2 := by
  have hl : (lastFive vals).length = 5 := lastFive_length h5
  have hm : (lastFive vals).getD i 0 ∈ lastFive vals := getD_mem (by omega) 0
  exact hv _ (List.drop_subset _ _ hm)

theorem mkLocalRegional_range {name country : String} {cm : List ℚ} {page : ℕ}
    (h : ∀ i, i < 5 → mkRat 1 2 ≤ cm.getD i 0 ∧ cm.getD i 0 ≤ mkRat 5 2) :
    lmInRange (mkLocalRegional name country cm page) :=
  ⟨h 0 (by omega), h 1 (by omega), h 2 (by omega), h 3 (by omega),
   h 4 (by omega)⟩

theorem mkLocalCity_range {name : String} {region : Option String}
    {country : String} {cm : List ℚ} {page : ℕ}
    (h : ∀ i, i < 5 → mkRat 1 2 ≤ cm.getD i 0 ∧ cm.getD i 0 ≤ mkRat 5 2) :
    lmInRange (mkLocalCity name region country cm page) :=
  ⟨h 0 (by omega), h 1 (by omega), h 2 (by omega), h 3 (by omega),
   h 4 (by omega)⟩

theorem mem_range_getD {nv : List ℚ} (hnv : ∀ v ∈ nv, mkRat 1 2 ≤ v ∧ v ≤ mkRat 5 2)
    {i : ℕ} (hi : i < nv.length) :
    mkRat 1 2 ≤ nv.getD i 0 ∧ nv.getD i 0 ≤ mkRat 5 2 :=
  hnv _ (getD_mem hi 0)

theorem lookaheadFilter_range {parts : List String} {v : ℚ}
    (h : v ∈ parts.filterMap (fun p =>
      match pyFloat p with
      | some v => if mkRat 1 2 ≤ v ∧ v ≤ mkRat 5 2 then some v else none
      | none => none)) : mkRat 1 2 ≤ v ∧ v ≤ mkRat 5 2 := by
  rw [List.mem_filterMap] at h
  obtain ⟨p, -, hp⟩ := h
  split at hp
  · split at hp
    · rename_i hc
      injection hp with hp
      subst hp
      exact hc
    · simp at hp
  · simp at hp

theorem lmTableRowStep_range {country : String} {page : ℕ} {st : Option String}
    {row : List String} {r : LocalEntry}
    (h : r ∈ (lmTableRowStep country page st row).2) : lmInRange r := by
  unfold lmTableRowStep at h
  dsimp only at h
  split at h
  · exact absurd h (List.not_mem_nil _)
  · split at h
    · exact absurd h (List.not_mem_nil _)
    · split at h
      · exact absurd h (List.not_mem_nil _)
      · split at h
        · exact absurd h (List.not_mem_nil _)
        · split at h
          · exact absurd h (List.not_mem_nil _)
          · split at h
            · rename_i hlen
              split at h
              · rw [List.mem_singleton] at h
                subst h
                exact mkLocalRegional_range fun i hi =>
                  lastFive_getD_range hlen
                    (fun v hv => tableExtractVals_range hv) hi
              · rw [List.mem_singleton] at h
                subst h
                exact mkLocalCity_range fun i hi =>
                  lastFive_getD_range hlen
                    (fun v hv => tableExtractVals_range hv) hi
            · exact absurd h (List.not_mem_nil _)

theorem posLookaheadRegion_range {dc : String} {page : ℕ} {cl : String}
    {next : Option String} {e : LocalEntry}
    (h : posLookaheadRegion dc page cl next = some e) : lmInRange e := by
  unfold posLookaheadRegion at h
  split at h
  · simp at h
  · dsimp only at h
    split at h
    · split at h
      · split at h
        · rename_i h5
          injection h with h
          subst h
          exact ⟨mem_range_getD (fun v hv => lookaheadFilter_range hv) (by omega),
                 mem_range_getD (fun v hv => lookaheadFilter_range hv) (by omega),
                 mem_range_getD (fun v hv => lookaheadFilter_range hv) (by omega),
                 mem_range_getD (fun v hv => lookaheadFilter_range hv) (by omega),
                 mem_range_getD (fun v hv => lookaheadFilter_range hv) (by omega)⟩
        · simp at h
      · simp at h
    · simp at h

theorem posLineStep_range {dc : String} {page : ℕ}
    {st : Option String × Option String} {ln : String × Option String}
    {r : LocalEntry} (h : r ∈ (posLineStep dc page st ln).2) : lmInRange r := by
  unfold posLineStep at h
  dsimp only at h
  split at h
  · exact absurd h (List.not_mem_nil _)
  · split at h
    · exact absurd h (List.not_mem_nil _)
    · split at h
      · exact absurd h (List.not_mem_nil _)
      · split at h
        · -- parts.length < 6: look-ahead region branch
          split at h
          · split at h
            · rename_i heq
              rw [List.mem_singleton] at h
              subst h
              exact posLookaheadRegion_range heq
            · exact absurd h (List.not_mem_nil _)
          · exact absurd h (List.not_mem_nil _)
        · -- main branch
          split at h
          · rename_i hlen
            split at h
            · exact absurd h (List.not_mem_nil _)
            · have hvals : ∀ v ∈ (if 5 < (posExtract (pySplit (clean_text_spacing (pyTrim ln.1)))).1.length
                  then lastFive (posExtract (pySplit (clean_text_spacing (pyTrim ln.1)))).1
                  else (posExtract (pySplit (clean_text_spacing (pyTrim ln.1)))).1),
                  mkRat 1 2 ≤ v ∧ v ≤ mkRat 5 2 := by
                intro v hv
                split at hv
                · unfold lastFive at hv
                  exact posExtract_vals (List.drop_subset _ _ hv)
                · exact posExtract_vals hv
              have hvlen : 5 ≤ (if 5 < (posExtract (pySplit (clean_text_spacing (pyTrim ln.1)))).1.length
                  then lastFive (posExtract (pySplit (clean_text_spacing (pyTrim ln.1)))).1
                  else (posExtract (pySplit (clean_text_spacing (pyTrim ln.1)))).1).length := by
                split
                · simp only [lastFive, List.length_drop]
                  omega
                · exact hlen
              split at h
              · rw [List.mem_singleton] at h
                subst h
                exact mkLocalRegional_range fun i hi =>
                  lastFive_getD_range hvlen hvals hi
              · rw [List.mem_singleton] at h
                subst h
                exact mkLocalCity_range fun i hi =>
                  lastFive_getD_range hvlen hvals hi
          · exact absurd h (List.not_mem_nil _)

theorem parse_table_data_range {table : List (List String)} {page : ℕ}
    {r : LocalEntry} (h : r ∈ parse_table_data table page) : lmInRange r := by
  obtain ⟨s, x, -, hr⟩ := scanStep_mem h
  exact lmTableRowStep_range hr

theorem parse_position_based_text_range {pt : String} {cols : List (Option String)}
    {page : ℕ} {r : LocalEntry} (h : r ∈ parse_position_based_text pt cols page) :
    lmInRange r := by
  unfold parse_position_based_text at h
  dsimp only at h
  obtain ⟨s, col, -, hcol⟩ := scanStep_mem h
  unfold posColumnStep at hcol
  split at hcol
  · exact absurd hcol (List.not_mem_nil _)
  · split at hcol
    · exact absurd hcol (List.not_mem_nil _)
    · obtain ⟨s2, ln, -, hln⟩ := scanStep_mem hcol
      exact posLineStep_range hln

theorem ccEmitRow_range {method : String} {page : ℕ} {region cls : String}
    {vals : List ℚ} {dates : List String} {r : CCEntry}
    (hv : ∀ v ∈ vals, mkRat 1 2 ≤ v ∧ v ≤ 2) (h : r ∈ ccEmitRow method page region cls vals dates) :
    ccInRange r := by
  unfold ccEmitRow at h
  rw [List.mem_map] at h
  obtain ⟨i, hi, rfl⟩ := h
  rw [List.mem_range] at hi
  have := hv _ (getD_mem (show i < vals.length by omega) 0)
  have h52 : (2 : ℚ) ≤ mkRat 5 2 := by decide
  exact ⟨this.1, by linarith [this.2]⟩

theorem ccGridEmitRow_range {method : String} {page : ℕ} {region cls : String}
    {vals : List ℚ} {dates : List String} {r : CCEntry}
    (hv : ∀ v ∈ vals, mkRat 4 5 ≤ v ∧ v ≤ mkRat 6 5)
    (h : r ∈ ccGridEmitRow method page region cls vals dates) : ccInRange r := by
  unfold ccGridEmitRow at h
  rw [List.mem_map] at h
  obtain ⟨i, hi, rfl⟩ := h
  rw [List.mem_range] at hi
  have := hv _ (getD_mem hi 0)
  have ha : (mkRat 1 2 : ℚ) ≤ mkRat 4 5 := by decide
  have hb : (mkRat 6 5 : ℚ) ≤ mkRat 5 2 := by decide
  exact ⟨by linarith [this.1], by linarith [this.2]⟩

theorem ccLineStep_range {method : String} {page : ℕ} {dates : List String}
    {lines : List String} {st : Option String} {idx : ℕ} {r : CCEntry}
    (h : r ∈ (ccLineStep method page dates lines st idx).2) : ccInRange r := by
  unfold ccLineStep at h
  dsimp only at h
  split at h
  · exact absurd h (List.not_mem_nil _)
  · split at h
    · exact absurd h (List.not_mem_nil _)
    · split at h
      · exact absurd h (List.not_mem_nil _)
      · split at h
        · exact absurd h (List.not_mem_nil _)
        · split at h
          · exact absurd h (List.not_mem_nil _)
          · split at h
            · exact absurd h (List.not_mem_nil _)
            · split at h
              · exact absurd h (List.not_mem_nil _)
              · split at h
                · exact absurd h (List.not_mem_nil _)
                · split at h
                  · exact absurd h (List.not_mem_nil _)
                  · refine ccEmitRow_range ?_ h
                    intro v hv
                    rw [List.mem_filterMap] at hv
                    obtain ⟨p, -, hp⟩ := hv
                    exact ccTokenValue_range hp

theorem parse_single_table_text_range {text method : String} {page : ℕ}
    {r : CCEntry} (h : r ∈ parse_single_table_text text method page) :
    ccInRange r := by
  unfold parse_single_table_text at h
  dsimp only at h
  obtain ⟨s, i, -, hr⟩ := scanStep_mem h
  exact ccLineStep_range hr

theorem ccGridRowStep_range {method : String} {page : ℕ}
    {st : Option String × List String} {row : List String} {r : CCEntry}
    (h : r ∈ (ccGridRowStep method page st row).2) : ccInRange r := by
  unfold ccGridRowStep at h
  dsimp only at h
  split at h
  · exact absurd h (List.not_mem_nil _)
  · split at h
    · exact absurd h (List.not_mem_nil _)
    · split at h
      · exact absurd h (List.not_mem_nil _)
      · split at h
        · exact absurd h (List.not_mem_nil _)
        · split at h
          · exact absurd h (List.not_mem_nil _)
          · split at h
            · exact absurd h (List.not_mem_nil _)
            · split at h
              · exact absurd h (List.not_mem_nil _)
              · split at h
                · exact absurd h (List.not_mem_nil _)
                · split at h
                  · split at h
                    · refine ccGridEmitRow_range ?_ h
                      intro v hv
                      rw [List.mem_filterMap] at hv
                      obtain ⟨p, -, hp⟩ := hv
                      exact ccGridCellValue_range hp
                    · exact absurd h (List.not_mem_nil _)
                  · exact absurd h (List.not_mem_nil _)

theorem parse_multiplier_table_range {table : List (List String)}
    {method : String} {page : ℕ} {r : CCEntry}
    (h : r ∈ parse_multiplier_table table method page) : ccInRange r := by
  obtain ⟨s, row, -, hr⟩ := scanStep_mem h
  exact ccGridRowStep_range hr

theorem create_entry_range {nums : List ℚ} {e : SHEntry}
    (h : create_entry nums = some e) : shInRange e := by
  unfold create_entry at h
  dsimp only at h
  split at h
  · simp at h
  · split at h
    · simp at h
    · split at h
      · simp at h
      · split at h
        · simp at h
        · split at h
          · simp at h
          · rename_i hlen h1 h2 h3 h4
            have h1' : mkRat 3 2 ≤ nums.getD 0 0 ∧ nums.getD 0 0 ≤ 10 := by
              simpa using h1
            have h2' : 5 ≤ nums.getD 1 0 ∧ nums.getD 1 0 ≤ 30 := by
              simpa using h2
            have h3' : mkRat 2 5 ≤ nums.getD 2 0 ∧ nums.getD 2 0 ≤ 2 := by
              simpa using h3
            have h4' : mkRat 2 5 ≤ nums.getD 3 0 ∧ nums.getD 3 0 ≤ 2 := by
              simpa using h4
            injection h with h
            subst h
            refine ⟨?_, ?_, ?_, ?_⟩
            · exact roundTo_range (m := 150) (n := 1000) (by norm_num)
                (by norm_num) h1'.1 h1'.2
            · exact pyInt_range (m := 5) (n := 30) (by norm_num) h2'.1 h2'.2
            · exact roundTo_range (m := 400) (n := 2000) (by norm_num)
                (by norm_num) h3'.1 h3'.2
            · exact roundTo_range (m := 400) (n := 2000) (by norm_num)
                (by norm_num) h4'.1 h4'.2

theorem create_entry_none {nums : List ℚ}
    (h : ¬(mkRat 3 2 ≤ nums.getD 0 0 ∧ nums.getD 0 0 ≤ 10) ∨
         ¬(5 ≤ nums.getD 1 0 ∧ nums.getD 1 0 ≤ 30) ∨
         ¬(mkRat 2 5 ≤ nums.getD 2 0 ∧ nums.getD 2 0 ≤ 2) ∨
         ¬(mkRat 2 5 ≤ nums.getD 3 0 ∧ nums.getD 3 0 ≤ 2)) :
    create_entry nums = none := by
  unfold create_entry
  dsimp only
  split
  · rfl
  · split
    · rfl
    · split
      · rfl
      · split
        · rfl
        · split
          · rfl
          · rename_i hlen h1 h2 h3 h4
            exfalso
            rcases h with h | h | h | h
            · exact h (by simpa using h1)
            · exact h (by simpa using h2)
            · exact h (by simpa using h3)
            · exact h (by simpa using h4)

theorem shRowRecords_range {row : List PdfWord} {e : SHEntry}
    (h : e ∈ shRowRecords row) : shInRange e := by
  unfold shRowRecords at h
  dsimp only at h
  split at h
  · rw [List.mem_append] at h
    rcases h with h | h
    · split at h
      · rw [Option.mem_toList, Option.mem_def] at h
        exact create_entry_range h
      · exact absurd h (List.not_mem_nil _)
    · split at h
      · rw [Option.mem_toList, Option.mem_def] at h
        exact create_entry_range h
      · exact absurd h (List.not_mem_nil _)
  · exact absurd h (List.not_mem_nil _)

theorem parse_story_height_data_range {words : List PdfWord} {pt : String}
    {e : SHEntry} (h : e ∈ parse_story_height_data words pt) : shInRange e := by
  unfold parse_story_height_data at h
  dsimp only at h
  split at h
  · exact absurd h (List.not_mem_nil _)
  · split at h
    · exact absurd h (List.not_mem_nil _)
    · rw [mem_stableSortBy, List.mem_flatten] at h
      obtain ⟨l, hl, he⟩ := h
      rw [List.mem_map] at hl
      obtain ⟨k, -, rfl⟩ := hl
      exact shRowRecords_range he

theorem fapDedupGo_subset {seen : List (ℤ × ℤ)} {l : List FapEntry} {e : FapEntry}
    (h : e ∈ fapDedupGo seen l) : e ∈ l := by
  induction l generalizing seen with
  | nil => simp [fapDedupGo] at h
  | cons m rest ih =>
    unfold fapDedupGo at h
    split at h
    · exact List.mem_cons_of_mem _ (ih h)
    · rw [List.mem_cons] at h
      rcases h with h | h
      · exact h ▸ List.mem_cons_self _ _
      · exact List.mem_cons_of_mem _ (ih h)

theorem fapWordRecord_range {cols : List (ℤ × ℚ)} {fa : ℤ} {w : PdfWord}
    {r : FapEntry} (h : fapWordRecord cols fa w = some r) : fapInRange r := by
  unfold fapWordRecord at h
  dsimp only at h
  split at h
  · simp at h
  · split at h
    · simp at h
    · split at h
      · rename_i hc
        split at h
        · injection h with h
          subst h
          exact roundTo_range (m := 800) (n := 1500) (by norm_num)
            (by norm_num) hc.1 hc.2
        · simp at h
      · simp at h

theorem fapRowRecords_range {cols : List (ℤ × ℚ)} {row : List PdfWord}
    {r : FapEntry} (h : r ∈ fapRowRecords cols row) : fapInRange r := by
  unfold fapRowRecords at h
  dsimp only at h
  split at h
  · exact absurd h (List.not_mem_nil _)
  · rw [List.mem_filterMap] at h
    obtain ⟨w, -, hw⟩ := h
    exact fapWordRecord_range hw

theorem parse_floor_area_perimeter_data_range {words : List PdfWord}
    {d : FapData} {r : FapEntry} (h1 : parse_floor_area_perimeter_data words = some d)
    (h2 : r ∈ d.multipliers) : fapInRange r := by
  unfold parse_floor_area_perimeter_data at h1
  dsimp only at h1
  split at h1
  · simp at h1
  · split at h1
    · simp at h1
    · split at h1
      · simp at h1
      · injection h1 with h1
        subst h1
        have h3 := fapDedupGo_subset h2
        rw [List.mem_flatten] at h3
        obtain ⟨l, hl, hr⟩ := h3
        rw [List.mem_map] at hl
        obtain ⟨rw0, -, rfl⟩ := hl
        exact fapRowRecords_range hr

/-! ## Claims -/

/-- C1: For every MultiplierRecord emitted by any of the four Record
Assemblers, every multiplier/cost field lies within that variant's
documented plausibility range: each of the five class multipliers of a
Local Multiplier record lies in [0.5, 2.5] (both the grid path and the
positional path); a Story-Height record's metric height lies in [1.5, 10],
its imperial height in [5, 30], and both its square-measure and volumetric
multipliers in [0.4, 2.0], and a quadruple with any of the four values out
of range yields no record at all; a Floor-Area/Perimeter record's
multiplier lies in [0.8, 1.5]; a Current-Cost record's multiplier lies in
[0.5, 2.5] (both the text path and the grid path). -/
theorem claim_C1 :
    (∀ (table : List (List String)) (page : ℕ) (r : LocalEntry),
        r ∈ parse_table_data table page → lmInRange r) ∧
    (∀ (pt : String) (cols : List (Option String)) (page : ℕ) (r : LocalEntry),
        r ∈ parse_position_based_text pt cols page → lmInRange r) ∧
    (∀ (text method : String) (page : ℕ) (r : CCEntry),
        r ∈ parse_single_table_text text method page → ccInRange r) ∧
    (∀ (table : List (List String)) (method : String) (page : ℕ) (r : CCEntry),
        r ∈ parse_multiplier_table table method page → ccInRange r) ∧
    (∀ (words : List PdfWord) (pt : String) (e : SHEntry),
        e ∈ parse_story_height_data words pt → shInRange e) ∧
    (∀ nums : List ℚ,
        (¬(mkRat 3 2 ≤ nums.getD 0 0 ∧ nums.getD 0 0 ≤ 10) ∨
         ¬(5 ≤ nums.getD 1 0 ∧ nums.getD 1 0 ≤ 30) ∨
         ¬(mkRat 2 5 ≤ nums.getD 2 0 ∧ nums.getD 2 0 ≤ 2) ∨
         ¬(mkRat 2 5 ≤ nums.getD 3 0 ∧ nums.getD 3 0 ≤ 2)) →
        create_entry nums = none) ∧
    (∀ (words : List PdfWord) (d : FapData) (r : FapEntry),
        parse_floor_area_perimeter_data words = some d → r ∈ d.multipliers →
        fapInRange r) := by
  refine ⟨?_, ?_, ?_, ?_, ?_, ?_, ?_⟩
  · exact fun table page r h => parse_table_data_range h
  · exact fun pt cols page r h => parse_position_based_text_range h
  · exact fun text method page r h => parse_single_table_text_range h
  · exact fun table method page r h => parse_multiplier_table_range h
  · exact fun words pt e h => parse_story_height_data_range h
  · exact fun nums h => create_entry_none h
  · exact fun words d r h1 h2 => parse_floor_area_perimeter_data_range h1 h2

/-- Witness for C1: the range invariant instantiated at concrete runs of all
four assemblers. -/
theorem claim_C1_witness :
    lmInRange { location := "ALBERTA", city := none, region := some "ALBERTA",
                country := "Unknown", class_a := mkRat 121 100,
                class_b := mkRat 129 100, class_c := mkRat 63 50,
                class_d := mkRat 119 100, class_s := mkRat 121 100,
                source_page := 1, is_regional := true } ∧
    ccInRange { method := "calculator", region := "Eastern",
                building_class := "A", effective_date := "11/2024",
                multiplier := mkRat 53 50, source_page := 1 } ∧
    shInRange { height_meters := mkRat 61 25, height_feet := 8,
                sqft_multiplier := mkRat 119 125, cuft_multiplier := mkRat 47 50 } ∧
    create_entry [0, 0, 0, 0] = none ∧
    fapInRange { floor_area_sqft := 1500, perimeter_ft := 160,
                 multiplier := mkRat 21 20 } := by
  refine ⟨?_, ?_, ?_, ?_, ?_⟩
  · exact claim_C1.1 [["ALBERTA", "1.21", "1.29", "1.26", "1.19", "1.21"]] 1 _
      (by decide)
  · exact claim_C1.2.2.1 "EFFECTIVE DATES (11/24) (2/25)\nEASTERN\nA 1.06 1.08"
      "calculator" 1 _ (by decide)
  · exact claim_C1.2.2.2.2.1
      [⟨"STORY", 10, 5⟩, ⟨"HEIGHT", 50, 5⟩, ⟨"MULTIPLIERS", 90, 5⟩,
       ⟨"2.44", 10, 40⟩, ⟨"8", 40, 40⟩, ⟨"0.952", 70, 40⟩, ⟨"0.940", 100, 40⟩]
      "x" _ (by decide)
  · exact claim_C1.2.2.2.2.2.1 [0, 0, 0, 0] (Or.inl (by decide))
  · exact claim_C1.2.2.2.2.2.2
      [⟨"FLOOR", 10, 5⟩, ⟨"AREA/PERIMETER", 60, 5⟩, ⟨"MULTIPLIERS", 160, 5⟩,
       ⟨"160", 100, 30⟩, ⟨"200", 180, 30⟩,
       ⟨"1500", 10, 50⟩, ⟨"1.05", 102, 50⟩, ⟨"1.06", 105, 50⟩,
       ⟨"1.10", 182, 50⟩]
      { perimeter_values := perimeter_values_ft,
        floor_area_values := floor_area_values_ft,
        multipliers :=
          [{ floor_area_sqft := 1500, perimeter_ft := 160, multiplier := mkRat 21 20 },
           { floor_area_sqft := 1500, perimeter_ft := 200, multiplier := mkRat 11 10 }] }
      _ (by decide) (by decide)

/-- C2 counterexample: the claim says a cleaned non-alphabetic, non-percent
token parsing to a value in [0.5, 2.5] is admitted as a candidate
multiplier. The token "2.2" cleans to "2.2" (no letters, no percent sign),
parses to 2.2 ∈ [0.5, 2.5], yet `parse_single_table_text`'s classifier
rejects it: its acceptance window is 0.5–2.0, not 0.5–2.5. -/
theorem claim_C2_counterexample :
    ccTokenValue "2.2" = none ∧
    (ccClean "2.2").toList.any Char.isAlpha = false ∧
    strContains (ccClean "2.2") "%" = false ∧
    pyFloat (ccClean "2.2") = some (mkRat 11 5) ∧
    mkRat 1 2 ≤ (mkRat 11 5 : ℚ) ∧ (mkRat 11 5 : ℚ) ≤ mkRat 5 2 := by
  decide

/-- C2 amended: in the Current-Cost assembler a token's numeric value is
accepted as a candidate multiplier iff it cleans to text with no alphabetic
character, parses to a number v, and 0.5 ≤ v ≤ 2.0 (text path); in the
grid-table path a cell is accepted iff it is nonempty, parses, and
0.8 ≤ v ≤ 1.2. Values outside these windows are rejected. -/
theorem claim_C2_amended :
    (∀ (s : String) (v : ℚ),
      ccTokenValue s = some v ↔
        ((ccClean s).toList.any Char.isAlpha = false ∧
         pyFloat (ccClean s) = some v ∧ mkRat 1 2 ≤ v ∧ v ≤ 2)) ∧
    (∀ (s : String) (v : ℚ),
      ccGridCellValue s = some v ↔
        (s ≠ "" ∧ pyFloat s = some v ∧ mkRat 4 5 ≤ v ∧ v ≤ mkRat 6 5)) := by
  constructor
  · intro s v
    constructor
    · intro h
      unfold ccTokenValue at h
      dsimp only at h
      split at h
      · simp at h
      · rename_i halpha
        split at h
        · simp at h
        · rename_i w hw
          split at h
          · rename_i hc
            injection h with h
            subst h
            exact ⟨by simpa using halpha, hw, hc.1, hc.2⟩
          · simp at h
    · rintro ⟨h1, h2, h3, h4⟩
      have hc : mkRat 1 2 ≤ v ∧ v ≤ 2 := ⟨h3, h4⟩
      simp [ccTokenValue, h1, h2, hc]
      intro x hx
      have h5 := List.any_eq_false.mp h1 x hx
      simpa using h5
  · intro s v
    constructor
    · intro h
      unfold ccGridCellValue at h
      split at h
      · simp at h
      · rename_i hne
        split at h
        · simp at h
        · rename_i w hw
          split at h
          · rename_i hc
            injection h with h
            subst h
            exact ⟨hne, hw, hc.1, hc.2⟩
          · simp at h
    · rintro ⟨h1, h2, h3, h4⟩
      have hc : mkRat 4 5 ≤ v ∧ v ≤ mkRat 6 5 := ⟨h3, h4⟩
      simp [ccGridCellValue, h1, h2, hc]

/-- Witness for C2 (amended): the token "1.06" is accepted by both paths. -/
theorem claim_C2_witness :
    ccTokenValue "1.06" = some (mkRat 53 50) ∧
    ccGridCellValue "1.06" = some (mkRat 53 50) := by
  constructor
  · exact (claim_C2_amended.1 "1.06" (mkRat 53 50)).mpr
      ⟨by decide, by decide, by decide, by decide⟩
  · exact (claim_C2_amended.2 "1.06" (mkRat 53 50)).mpr
      ⟨by decide, by decide, by decide, by decide⟩

/-- C3 counterexample: in the grid path of the Current-Cost assembler
(`parse_multiplier_table`), a class-A row with two accepted values against a
single accumulated effective date emits TWO records — not min(2, 1) = 1 —
the second carrying the placeholder date "Column_2". Emission is therefore
not bounded by the shorter of the two lengths, contradicting the claim. -/
theorem claim_C3_counterexample :
    parse_multiplier_table
        [["EFFECTIVE DATE (11/24)"], ["EASTERN"], ["A", "1.06", "1.08"]]
        "calculator" 1 =
      [{ method := "calculator", region := "Eastern", building_class := "A",
         effective_date := "11/2024", multiplier := mkRat 53 50,
         source_page := 1 },
       { method := "calculator", region := "Eastern", building_class := "A",
         effective_date := "Column_2", multiplier := mkRat 27 25,
         source_page := 1 }] ∧
    (["1.06", "1.08"].filterMap ccGridCellValue).length = 2 ∧
    ((scanStep (ccGridRowStep "calculator" 1) (none, ([] : List String))
        [["EFFECTIVE DATE (11/24)"]]).1).2 = ["11/2024"] ∧
    min 2 1 ≠ 2 := by
  decide

set_option maxHeartbeats 1600000 in
/-- C3 amended: in the text path (`parse_single_table_text`) every
building-class row emits exactly min(#accepted values, #accumulated dates)
records, the i-th accepted value paired with the i-th date (partial emission
on a count mismatch, nothing beyond the shorter length; the mismatch is only
logged to the console); in the grid path (`parse_multiplier_table`) every
accepted value of a class row is emitted, values beyond the date list
receiving placeholder dates "Column_{i+1}". -/
theorem claim_C3_amended :
    (∀ (method : String) (page : ℕ) (region cls : String) (vals : List ℚ)
        (dates : List String),
      (ccEmitRow method page region cls vals dates).length =
        min vals.length dates.length ∧
      ∀ i, i < min vals.length dates.length →
        (ccEmitRow method page region cls vals dates).getD i
            { method := "", region := "", building_class := "",
              effective_date := "", multiplier := 0, source_page := 0 } =
          { method := method, region := region, building_class := cls,
            effective_date := dates.getD i "", multiplier := vals.getD i 0,
            source_page := page }) ∧
    (∀ (method : String) (page : ℕ) (dates lines : List String)
        (st : Option String) (idx : ℕ),
      (ccLineStep method page dates lines st idx).2 = [] ∨
      ∃ (region cls : String) (valueParts : List String),
        (ccLineStep method page dates lines st idx).2 =
          ccEmitRow method page region cls
            (valueParts.filterMap ccTokenValue) dates) ∧
    (∀ (method : String) (page : ℕ) (region cls : String) (vals : List ℚ)
        (dates : List String),
      (ccGridEmitRow method page region cls vals dates).length = vals.length ∧
      ∀ i, i < vals.length →
        ((ccGridEmitRow method page region cls vals dates).getD i
            { method := "", region := "", building_class := "",
              effective_date := "", multiplier := 0, source_page := 0
            }).effective_date =
          (if i < dates.length then dates.getD i ""
           else "Column_" ++ toString (i + 1))) ∧
    (∀ (method : String) (page : ℕ) (st : Option String × List String)
        (row : List String),
      (ccGridRowStep method page st row).2 = [] ∨
      ∃ (region cls : String) (rest : List String),
        (ccGridRowStep method page st row).2 =
          ccGridEmitRow method page region cls
            (rest.filterMap ccGridCellValue) st.2) := by
  refine ⟨?_, ?_, ?_, ?_⟩
  · intro method page region cls vals dates
    constructor
    · simp [ccEmitRow]
    · intro i hi
      rw [ccEmitRow, List.getD_eq_getElem _ _ (by simpa using hi)]
      simp
  · intro method page dates lines st idx
    unfold ccLineStep
    dsimp only
    split
    · exact Or.inl rfl
    · split
      · exact Or.inl rfl
      · split
        · exact Or.inl rfl
        · split
          · exact Or.inl rfl
          · split
            · exact Or.inl rfl
            · split
              · exact Or.inl rfl
              · split
                · exact Or.inl rfl
                · split
                  · exact Or.inl rfl
                  · split
                    · exact Or.inl rfl
                    · rename_i region heq
                      exact Or.inr ⟨region, _, _, rfl⟩
  · intro method page region cls vals dates
    constructor
    · simp [ccGridEmitRow]
    · intro i hi
      rw [ccGridEmitRow, List.getD_eq_getElem _ _ (by simpa using hi)]
      simp
  · intro method page st row
    unfold ccGridRowStep
    dsimp only
    split
    · exact Or.inl rfl
    · split
      · exact Or.inl rfl
      · split
        · exact Or.inl rfl
        · split
          · exact Or.inl rfl
          · split
            · exact Or.inl rfl
            · split
              · exact Or.inl rfl
              · split
                · exact Or.inl rfl
                · split
                  · exact Or.inl rfl
                  · split
                    · split
                      · exact Or.inr ⟨_, _, _, rfl⟩
                      · exact Or.inl rfl
                    · exact Or.inl rfl

/-- Witness for C3 (amended): the zip bound and pairing at a concrete
class-A row, and the grid-path placeholder date past the date list. -/
theorem claim_C3_amended_witness :
    (ccEmitRow "calculator" 1 "Eastern" "A" [mkRat 53 50, mkRat 27 25]
        ["11/2024", "2/2025"]).length =
      min [mkRat 53 50, mkRat 27 25].length ["11/2024", "2/2025"].length ∧
    (ccEmitRow "calculator" 1 "Eastern" "A" [mkRat 53 50, mkRat 27 25]
        ["11/2024", "2/2025"]).getD 0
        { method := "", region := "", building_class := "",
          effective_date := "", multiplier := 0, source_page := 0 } =
      { method := "calculator", region := "Eastern", building_class := "A",
        effective_date := "11/2024", multiplier := mkRat 53 50,
        source_page := 1 } ∧
    ((ccGridEmitRow "calculator" 1 "Eastern" "A" [mkRat 53 50, mkRat 27 25]
        ["11/2024"]).getD 1
        { method := "", region := "", building_class := "",
          effective_date := "", multiplier := 0, source_page := 0
        }).effective_date =
      (if 1 < ["11/2024"].length then ["11/2024"].getD 1 ""
       else "Column_" ++ toString (1 + 1)) := by
  refine ⟨?_, ?_, ?_⟩
  · exact (claim_C3_amended.1 "calculator" 1 "Eastern" "A"
      [mkRat 53 50, mkRat 27 25] ["11/2024", "2/2025"]).1
  · exact (claim_C3_amended.1 "calculator" 1 "Eastern" "A"
      [mkRat 53 50, mkRat 27 25] ["11/2024", "2/2025"]).2 0 (by decide)
  · exact (claim_C3_amended.2.2.1 "calculator" 1 "Eastern" "A"
      [mkRat 53 50, mkRat 27 25] ["11/2024"]).2 1 (by decide)

/-- C4: on the spec's region-propagation example — the row "ALBERTA" with
multipliers 1.21 1.29 1.26 1.19 1.21 followed by the row "Calgary" with
multipliers 1.21 1.30 1.27 1.20 1.21 (the format of `parse_table_data`'s
own docstring, with each row holding a location cell and five value cells;
equivalently two positioned text lines for the positional path) — the Local
Multiplier assembler emits a regional record for "ALBERTA" (is_regional
true, region "ALBERTA") and a city record for "Calgary" (is_regional false)
whose region field equals "ALBERTA". -/
theorem claim_C4 :
    parse_table_data
        [["ALBERTA", "1.21", "1.29", "1.26", "1.19", "1.21"],
         ["Calgary", "1.21", "1.30", "1.27", "1.20", "1.21"]] 1 =
      [{ location := "ALBERTA", city := none, region := some "ALBERTA",
         country := "Unknown", class_a := mkRat 121 100,
         class_b := mkRat 129 100, class_c := mkRat 63 50,
         class_d := mkRat 119 100, class_s := mkRat 121 100,
         source_page := 1, is_regional := true },
       { location := "Calgary, ALBERTA", city := some "Calgary",
         region := some "ALBERTA", country := "Unknown",
         class_a := mkRat 121 100, class_b := mkRat 13 10,
         class_c := mkRat 127 100, class_d := mkRat 6 5,
         class_s := mkRat 121 100, source_page := 1,
         is_regional := false }] ∧
    parse_position_based_text ""
        [some "ALBERTA 1.21 1.29 1.26 1.19 1.21\nCalgary 1.21 1.30 1.27 1.20 1.21"]
        1 =
      [{ location := "ALBERTA", city := none, region := some "ALBERTA",
         country := "Unknown", class_a := mkRat 121 100,
         class_b := mkRat 129 100, class_c := mkRat 63 50,
         class_d := mkRat 119 100, class_s := mkRat 121 100,
         source_page := 1, is_regional := true },
       { location := "Calgary, ALBERTA", city := some "Calgary",
         region := some "ALBERTA", country := "Unknown",
         class_a := mkRat 121 100, class_b := mkRat 13 10,
         class_c := mkRat 127 100, class_d := mkRat 6 5,
         class_s := mkRat 121 100, source_page := 1,
         is_regional := false }] := by
  decide

theorem fapBestStep_inv {x : ℚ} {S : List (ℤ × ℚ)} {b : Option (ℤ × ℚ)}
    (h : fapBestInv x S b) (pc : ℤ × ℚ) :
    fapBestInv x (S ++ [pc]) (fapBestStep x b pc) := by
  cases b with
  | none =>
    simp only [fapBestStep]
    split
    · rename_i hlt
      refine ⟨hlt, ⟨pc.2, by simp, rfl⟩, ?_⟩
      intro c hc
      rcases List.mem_append.mp hc with h1 | h1
      · exact le_trans (le_of_lt hlt) (h c h1)
      · rw [List.mem_singleton] at h1
        subst h1
        exact le_refl _
    · rename_i hge
      intro c hc
      rcases List.mem_append.mp hc with h1 | h1
      · exact h c h1
      · rw [List.mem_singleton] at h1
        subst h1
        exact le_of_not_lt hge
  | some pd =>
    obtain ⟨p, d⟩ := pd
    obtain ⟨hd40, ⟨px, hmem, hdist⟩, hmin⟩ := h
    simp only [fapBestStep]
    split
    · rename_i hlt
      refine ⟨hlt.2, ⟨pc.2, by simp, rfl⟩, ?_⟩
      intro c hc
      rcases List.mem_append.mp hc with h1 | h1
      · exact le_trans (le_of_lt hlt.1) (hmin c h1)
      · rw [List.mem_singleton] at h1
        subst h1
        exact le_refl _
    · rename_i hn
      refine ⟨hd40, ⟨px, List.mem_append_left _ hmem, hdist⟩, ?_⟩
      intro c hc
      rcases List.mem_append.mp hc with h1 | h1
      · exact hmin c h1
      · rw [List.mem_singleton] at h1
        subst h1
        rcases not_and_or.mp hn with h2 | h2
        · exact le_of_not_lt h2
        · exact le_trans (le_of_lt hd40) (le_of_not_lt h2)

theorem fapBest_fold (x : ℚ) :
    ∀ (cols S : List (ℤ × ℚ)) (b : Option (ℤ × ℚ)),
      fapBestInv x S b →
      fapBestInv x (S ++ cols) (cols.foldl (fapBestStep x) b)
  | [], S, b, h => by simpa using h
  | c :: cs, S, b, h => by
    have h2 := fapBest_fold x cs (S ++ [c]) (fapBestStep x b c)
      (fapBestStep_inv h c)
    rw [show S ++ c :: cs = (S ++ [c]) ++ cs by simp]
    exact h2

theorem fapBest_spec (cols : List (ℤ × ℚ)) (x : ℚ) :
    fapBestInv x cols (fapBest cols x) := by
  have h := fapBest_fold x cols [] none
    (by intro pc hpc; exact absurd hpc (List.not_mem_nil _))
  simpa [fapBest] using h

/-- C5: in the Floor-Area/Perimeter assembler, a numeric cell is assigned
to the perimeter breakpoint whose calibrated x-position is nearest the
cell's x-position, and a cell farther than 40 units from every calibrated
x-position is discarded and contributes no record.  Stated over the code's
integer-level distance `qabs (qsub x px)`, identified with `|x - px|` by
the first conjunct: (1) the distance function is the absolute difference;
(2) if every column is strictly farther than 40 the cell is unassigned;
(3) an assigned breakpoint is a listed column within 40 units whose
distance is minimal among all columns; (4) an unassigned word yields no
record. -/
theorem claim_C5 :
    (∀ x y : ℚ, qabs (qsub x y) = |x - y|) ∧
    (∀ (cols : List (ℤ × ℚ)) (x : ℚ),
      (∀ pc ∈ cols, 40 < qabs (qsub x pc.2)) → fapAssign cols x = none) ∧
    (∀ (cols : List (ℤ × ℚ)) (x : ℚ) (p : ℤ),
      fapAssign cols x = some p →
      ∃ px, (p, px) ∈ cols ∧ qabs (qsub x px) < 40 ∧
        ∀ pc ∈ cols, qabs (qsub x px) ≤ qabs (qsub x pc.2)) ∧
    (∀ (cols : List (ℤ × ℚ)) (fa : ℤ) (w : PdfWord),
      fapAssign cols w.x0 = none → fapWordRecord cols fa w = none) := by
  refine ⟨?_, ?_, ?_, ?_⟩
  · intro x y
    rw [qabs_eq, qsub_eq]
  · intro cols x h
    have hs := fapBest_spec cols x
    cases hb : fapBest cols x with
    | none => simp [fapAssign, hb]
    | some pd =>
      rw [hb] at hs
      obtain ⟨h40, ⟨px, hm, he⟩, _⟩ := hs
      have hgt := h (pd.1, px) hm
      rw [← he] at hgt
      exact absurd h40 (not_lt.mpr (le_of_lt hgt))
  · intro cols x p hp
    have hs := fapBest_spec cols x
    unfold fapAssign at hp
    cases hb : fapBest cols x with
    | none => rw [hb] at hp; exact absurd hp (by simp)
    | some pd =>
      rw [hb] at hp hs
      obtain ⟨h40, ⟨px, hm, he⟩, hmin⟩ := hs
      dsimp only at hp
      split at hp
      · have hpe : pd.1 = p := Option.some.inj hp
        subst hpe
        exact ⟨px, hm, he ▸ h40, fun pc hc => he ▸ hmin pc hc⟩
      · exact absurd hp (by simp)
  · intro cols fa w h
    unfold fapWordRecord
    dsimp only
    split
    · rfl
    · cases hf : pyFloat (pyTrim (strReplace w.text "," "")) with
      | none => rfl
      | some num =>
        dsimp only
        split
        · rw [h]
        · rfl

/-- C5 witness: on the spec's column-calibration example — breakpoints
160, 200, 300 at x-positions 50, 150, 260 — a token at x = 500 is
discarded (all distances exceed 40) and a token at x = 152 is assigned to
breakpoint 200, the nearest column, within 40 units. -/
theorem claim_C5_witness :
    fapAssign [((160 : ℤ), (50 : ℚ)), (200, 150), (300, 260)] 500 = none ∧
    (∃ px, ((200 : ℤ), px) ∈ [((160 : ℤ), (50 : ℚ)), (200, 150), (300, 260)] ∧
      qabs (qsub 152 px) < 40 ∧
      ∀ pc ∈ [((160 : ℤ), (50 : ℚ)), (200, 150), (300, 260)],
        qabs (qsub 152 px) ≤ qabs (qsub 152 pc.2)) := by
  constructor
  · exact claim_C5.2.1 _ 500 (by decide)
  · exact claim_C5.2.2.1 _ 152 200 (by decide)

theorem tableCellValue_percent {cell : String}
    (h : strContains cell "%" = true) : tableCellValue cell = none := by
  unfold tableCellValue
  split
  · rfl
  · rename_i hn
    exact absurd h hn

theorem posExtractStep_percent {acc : List ℚ × List String × Bool}
    {part : String} (h : strContains part "%" = true) :
    posExtractStep acc part = acc := by
  unfold posExtractStep
  split
  · rfl
  · rename_i hn
    exact absurd h hn

theorem lmTableRowStep_percent {country : String} {page : ℕ}
    {st : Option String} {row : List String}
    (h : (row.map cleanCell).any (fun c => strContains c "%") = true) :
    lmTableRowStep country page st row = (st, []) := by
  unfold lmTableRowStep
  dsimp only
  split
  · rfl
  · split
    · rfl
    · split
      · rfl
      · split
        · rfl
        · rename_i hc
          exact absurd (by simp [h]) hc

theorem posLineStep_percent {dc : String} {page : ℕ}
    {st : Option String × Option String} {ln : String × Option String}
    (h : strContains (clean_text_spacing (pyTrim ln.1)) "%" = true) :
    posLineStep dc page st ln = (st, []) := by
  unfold posLineStep
  dsimp only
  split
  · rfl
  · split
    · rfl
    · rfl

/-- C6: in the Local Multiplier assembler a percent sign causes rejection
before numeric parsing: (1) a table cell containing `%` yields no value;
(2) a positional token containing `%` leaves the value/label accumulator
unchanged; (3) a table row with a `%` cell and (4) a positional line whose
cleaned text contains `%` each produce zero records and leave the region
state unchanged; (5) in particular the row `["TAX", "5.5%", "6.0%"]`
produces zero records from any state. -/
theorem claim_C6 :
    (∀ cell : String, strContains cell "%" = true →
      tableCellValue cell = none) ∧
    (∀ (acc : List ℚ × List String × Bool) (part : String),
      strContains part "%" = true → posExtractStep acc part = acc) ∧
    (∀ (country : String) (page : ℕ) (st : Option String) (row : List String),
      (row.map cleanCell).any (fun c => strContains c "%") = true →
      lmTableRowStep country page st row = (st, [])) ∧
    (∀ (dc : String) (page : ℕ) (st : Option String × Option String)
        (ln : String × Option String),
      strContains (clean_text_spacing (pyTrim ln.1)) "%" = true →
      posLineStep dc page st ln = (st, [])) ∧
    (∀ (country : String) (page : ℕ) (st : Option String),
      lmTableRowStep country page st ["TAX", "5.5%", "6.0%"] = (st, [])) := by
  refine ⟨?_, ?_, ?_, ?_, ?_⟩
  · intro cell h
    exact tableCellValue_percent h
  · intro acc part h
    exact posExtractStep_percent h
  · intro country page st row h
    exact lmTableRowStep_percent h
  · intro dc page st ln h
    exact posLineStep_percent h
  · intro country page st
    exact lmTableRowStep_percent (by decide)

/-- C6 witness: concrete percent-bearing inputs — the cell `"5.5%"`, the
token `"6.0%"`, the row `["TAX", "5.5%", "6.0%"]` under region `ALBERTA`,
and the positional line `"TAX 5.5% 6.0%"` — are all rejected with no
records and no state change. -/
theorem claim_C6_witness :
    tableCellValue "5.5%" = none ∧
    posExtractStep ([], [], false) "6.0%" = ([], [], false) ∧
    lmTableRowStep "Unknown" 1 (some "ALBERTA") ["TAX", "5.5%", "6.0%"] =
      (some "ALBERTA", []) ∧
    posLineStep "Unknown" 1 (none, none) ("TAX 5.5% 6.0%", none) =
      ((none, none), []) := by
  refine ⟨?_, ?_, ?_, ?_⟩
  · exact claim_C6.1 "5.5%" (by decide)
  · exact claim_C6.2.1 ([], [], false) "6.0%" (by decide)
  · exact claim_C6.2.2.1 "Unknown" 1 (some "ALBERTA") _ (by decide)
  · exact claim_C6.2.2.2.1 "Unknown" 1 (none, none) _ (by decide)

/-- C7: each of the four top-level parse calls, when the document is
unreadable (`pdfplumber.open` fails) or the requested page range contains
a page index outside `[1, page_count]`, aborts the whole parse and
returns a structured failure result: `success` is `false`, the record
list is empty (no partial records), and the `errors` list is non-empty.
(That no exception escapes the call is modeled by each embedded top-level
being a total function into its result structure.) -/
theorem claim_C7 :
    (∀ (pdf : Option (List LMPage)) (path : String) (sp ep : ℤ),
      (pdf = none ∨ ∃ doc, pdf = some doc ∧
        ∃ k : ℤ, sp ≤ k ∧ k ≤ ep ∧ (k < 1 ∨ (doc.length : ℤ) < k)) →
      (parse_local_multiplier_table pdf path sp ep).success = false ∧
      (parse_local_multiplier_table pdf path sp ep).multipliers = [] ∧
      (parse_local_multiplier_table pdf path sp ep).errors ≠ []) ∧
    (∀ (pdf : Option (List CCPage)) (path : String) (sp ep : ℤ),
      (pdf = none ∨ ∃ doc, pdf = some doc ∧
        ∃ k : ℤ, sp ≤ k ∧ k ≤ ep ∧ (k < 1 ∨ (doc.length : ℤ) < k)) →
      (parse_current_cost_multiplier_table pdf path sp ep).success = false ∧
      (parse_current_cost_multiplier_table pdf path sp ep).multipliers = [] ∧
      (parse_current_cost_multiplier_table pdf path sp ep).errors ≠ []) ∧
    (∀ (pdf : Option (List SHPage)) (path : String) (page : ℤ),
      (pdf = none ∨ ∃ doc, pdf = some doc ∧
        (page < 1 ∨ (doc.length : ℤ) < page)) →
      (parse_story_height_table pdf path page).success = false ∧
      (parse_story_height_table pdf path page).multipliers = [] ∧
      (parse_story_height_table pdf path page).errors ≠ []) ∧
    (∀ (pdf : Option (List FapPage)) (path : String) (page : ℤ),
      (pdf = none ∨ ∃ doc, pdf = some doc ∧
        (page < 1 ∨ (doc.length : ℤ) < page)) →
      (parse_area_perimeter_table pdf path page).success = false ∧
      (parse_area_perimeter_table pdf path page).multipliers = [] ∧
      (parse_area_perimeter_table pdf path page).errors ≠ []) := by
  refine ⟨?_, ?_, ?_, ?_⟩
  · intro pdf path sp ep h
    rcases h with h | ⟨doc, hd, k, hk1, hk2, hk3⟩
    · subst h
      exact ⟨rfl, rfl, List.cons_ne_nil _ _⟩
    · subst hd
      have hcond : sp < 1 ∨ (doc.length : ℤ) < ep := by
        rcases hk3 with h1 | h1
        · exact Or.inl (lt_of_le_of_lt hk1 h1)
        · exact Or.inr (lt_of_lt_of_le h1 hk2)
      unfold parse_local_multiplier_table
      dsimp only
      rw [if_pos hcond]
      exact ⟨rfl, rfl, List.cons_ne_nil _ _⟩
  · intro pdf path sp ep h
    rcases h with h | ⟨doc, hd, k, hk1, hk2, hk3⟩
    · subst h
      exact ⟨rfl, rfl, List.cons_ne_nil _ _⟩
    · subst hd
      have hcond : sp < 1 ∨ (doc.length : ℤ) < ep := by
        rcases hk3 with h1 | h1
        · exact Or.inl (lt_of_le_of_lt hk1 h1)
        · exact Or.inr (lt_of_lt_of_le h1 hk2)
      unfold parse_current_cost_multiplier_table
      dsimp only
      rw [if_pos hcond]
      exact ⟨rfl, rfl, List.cons_ne_nil _ _⟩
  · intro pdf path page h
    rcases h with h | ⟨doc, hd, hcond⟩
    · subst h
      exact ⟨rfl, rfl, List.cons_ne_nil _ _⟩
    · subst hd
      unfold parse_story_height_table
      dsimp only
      rw [if_pos hcond]
      exact ⟨rfl, rfl, List.cons_ne_nil _ _⟩
  · intro pdf path page h
    rcases h with h | ⟨doc, hd, hcond⟩
    · subst h
      exact ⟨rfl, rfl, List.cons_ne_nil _ _⟩
    · subst hd
      unfold parse_area_perimeter_table
      dsimp only
      rw [if_pos hcond]
      exact ⟨rfl, rfl, List.cons_ne_nil _ _⟩

/-- C7 witness: concrete failing invocations — a missing file for the
current-cost and floor-area parsers, a 0-page document asked for page
range 1–1 for the local-multiplier parser, and page 3 of a 2-page
document for the story-height parser — each return `success = false`,
no records, and a non-empty error list. -/
theorem claim_C7_witness :
    ((parse_local_multiplier_table (some []) "mvs.pdf" 1 1).success = false ∧
     (parse_local_multiplier_table (some []) "mvs.pdf" 1 1).multipliers = [] ∧
     (parse_local_multiplier_table (some []) "mvs.pdf" 1 1).errors ≠ []) ∧
    ((parse_current_cost_multiplier_table none "mvs.pdf" 1 2).success = false ∧
     (parse_current_cost_multiplier_table none "mvs.pdf" 1 2).multipliers = [] ∧
     (parse_current_cost_multiplier_table none "mvs.pdf" 1 2).errors ≠ []) ∧
    ((parse_story_height_table
        (some [{ words := [], pageText := "" },
               { words := [], pageText := "" }]) "mvs.pdf" 3).success = false ∧
     (parse_story_height_table
        (some [{ words := [], pageText := "" },
               { words := [], pageText := "" }]) "mvs.pdf" 3).multipliers = [] ∧
     (parse_story_height_table
        (some [{ words := [], pageText := "" },
               { words := [], pageText := "" }]) "mvs.pdf" 3).errors ≠ []) ∧
    ((parse_area_perimeter_table none "mvs.pdf" 1).success = false ∧
     (parse_area_perimeter_table none "mvs.pdf" 1).multipliers = [] ∧
     (parse_area_perimeter_table none "mvs.pdf" 1).errors ≠ []) := by
  refine ⟨?_, ?_, ?_, ?_⟩
  · exact claim_C7.1 (some []) "mvs.pdf" 1 1
      (Or.inr ⟨[], rfl, 1, by decide, by decide, Or.inr (by decide)⟩)
  · exact claim_C7.2.1 none "mvs.pdf" 1 2 (Or.inl rfl)
  · exact claim_C7.2.2.1
      (some [{ words := [], pageText := "" }, { words := [], pageText := "" }])
      "mvs.pdf" 3
      (Or.inr ⟨_, rfl, Or.inr (by decide)⟩)
  · exact claim_C7.2.2.2 none "mvs.pdf" 1 (Or.inl rfl)

theorem lmRangeRecords_cons {doc : List LMPage} {s e : ℕ}
    (h1 : 1 ≤ s) (h2 : s ≤ e) (h3 : e ≤ doc.length) :
    lmRangeRecords doc (s : ℤ) (e : ℤ) =
      parse_page_multipliers (doc.getD (s - 1) ⟨[], "", []⟩) s ++
        lmRangeRecords doc ((s : ℤ) + 1) (e : ℤ) := by
  unfold lmRangeRecords
  have hs : ((s : ℤ)).toNat = s := by omega
  have hs1 : ((s : ℤ) + 1).toNat = s + 1 := by omega
  have he : ((e : ℤ)).toNat = e := by omega
  rw [hs, hs1, he]
  have hlt : s - 1 < (doc.enum.take e).length := by
    rw [List.length_take, List.enum_length]
    omega
  rw [List.drop_eq_getElem_cons hlt]
  have hlt2 : s - 1 < doc.enum.length := by
    rw [List.enum_length]; omega
  have hed : (doc.enum.take e)[s - 1] = doc.enum[s - 1] := by
    rw [List.getElem_take]
  rw [hed]
  have hlt3 : s - 1 < doc.length := by omega
  have hen : doc.enum[s - 1] = (s - 1, doc[s - 1]) := by
    rw [List.getElem_enum]
  rw [hen]
  rw [List.map_cons, List.flatten_cons]
  congr 1
  · have hgd : doc.getD (s - 1) ⟨[], "", []⟩ = doc[s - 1] := by
      rw [List.getD_eq_getElem]
    rw [hgd]
    congr 1
    omega
  · have hss : s - 1 + 1 = s + 1 - 1 := by omega
    rw [hss]

/-- C8 counterexample: a two-page run whose first page yields zero records.
The run proceeds and succeeds with the second page's record, but the
returned result records no warning for the zero-record page — its `errors`
list (the only diagnostics the result dictionary carries) is empty; the
"no multipliers found" warning is only printed to the console. -/
theorem claim_C8_counterexample :
    parse_page_multipliers { tables := [], pageText := "", columns := [] } 1
      = [] ∧
    parse_local_multiplier_table
        (some [{ tables := [], pageText := "", columns := [] },
               { tables := [[["ALBERTA", "1.21", "1.29", "1.26", "1.19", "1.21"],
                             [""], [""], [""]]],
                 pageText := "", columns := [] }]) "mvs.pdf" 1 2 =
      { success := true,
        multipliers := [{ location := "ALBERTA",
                          city := none,
                          region := some "ALBERTA",
                          country := "Unknown",
                          class_a := mkRat 121 100,
                          class_b := mkRat 129 100,
                          class_c := mkRat 63 50,
                          class_d := mkRat 119 100,
                          class_s := mkRat 121 100,
                          source_page := 2,
                          is_regional := true }],
        source_file := "mvs.pdf", pages_processed := "1-2",
        total_entries := 1, errors := [] } := by
  constructor
  · decide
  · decide

/-- C8 amended: a page in a valid range that yields zero records does not
abort the run: the result is successful (`success = true`) with the
concatenation of all pages' records and an empty `errors` list — the
zero-record warning is only printed to the console, not recorded in the
returned result.  The second conjunct makes the page-by-page progression
explicit: the records of range `s..e` are the records of page `s`
(possibly `[]`) followed by the records of range `s+1..e`. -/
theorem claim_C8_amended :
    (∀ (doc : List LMPage) (path : String) (sp ep : ℤ),
      ¬(sp < 1 ∨ (doc.length : ℤ) < ep) →
      (parse_local_multiplier_table (some doc) path sp ep).success = true ∧
      (parse_local_multiplier_table (some doc) path sp ep).multipliers =
        lmRangeRecords doc sp ep ∧
      (parse_local_multiplier_table (some doc) path sp ep).errors = []) ∧
    (∀ (doc : List LMPage) (s e : ℕ), 1 ≤ s → s ≤ e → e ≤ doc.length →
      lmRangeRecords doc (s : ℤ) (e : ℤ) =
        parse_page_multipliers (doc.getD (s - 1) ⟨[], "", []⟩) s ++
          lmRangeRecords doc ((s : ℤ) + 1) (e : ℤ)) := by
  constructor
  · intro doc path sp ep h
    unfold parse_local_multiplier_table
    dsimp only
    rw [if_neg h]
    exact ⟨rfl, rfl, rfl⟩
  · intro doc s e h1 h2 h3
    exact lmRangeRecords_cons h1 h2 h3

/-- C8 witness: the two-page document whose first page is empty — the
valid-range run succeeds with empty `errors`, and the range 1–2 unrolls
into page 1's (empty) records followed by the range 2–2 records. -/
theorem claim_C8_witness :
    ((parse_local_multiplier_table
        (some [{ tables := [], pageText := "", columns := [] },
               { tables := [[["ALBERTA", "1.21", "1.29", "1.26", "1.19", "1.21"],
                             [""], [""], [""]]],
                 pageText := "", columns := [] }]) "mvs.pdf" 1 2).success
        = true ∧
      (parse_local_multiplier_table
        (some [{ tables := [], pageText := "", columns := [] },
               { tables := [[["ALBERTA", "1.21", "1.29", "1.26", "1.19", "1.21"],
                             [""], [""], [""]]],
                 pageText := "", columns := [] }]) "mvs.pdf" 1 2).multipliers
        = lmRangeRecords
            [{ tables := [], pageText := "", columns := [] },
             { tables := [[["ALBERTA", "1.21", "1.29", "1.26", "1.19", "1.21"],
                           [""], [""], [""]]],
               pageText := "", columns := [] }] 1 2 ∧
      (parse_local_multiplier_table
        (some [{ tables := [], pageText := "", columns := [] },
               { tables := [[["ALBERTA", "1.21", "1.29", "1.26", "1.19", "1.21"],
                             [""], [""], [""]]],
                 pageText := "", columns := [] }]) "mvs.pdf" 1 2).errors
        = []) ∧
    lmRangeRecords
        [{ tables := [], pageText := "", columns := [] },
         { tables := [[["ALBERTA", "1.21", "1.29", "1.26", "1.19", "1.21"],
                       [""], [""], [""]]],
           pageText := "", columns := [] }] ((1 : ℕ) : ℤ) ((2 : ℕ) : ℤ) =
      parse_page_multipliers
          ([{ tables := [], pageText := "", columns := [] },
            { tables := [[["ALBERTA", "1.21", "1.29", "1.26", "1.19", "1.21"],
                          [""], [""], [""]]],
              pageText := "", columns := [] }].getD (1 - 1) ⟨[], "", []⟩) 1 ++
        lmRangeRecords
          [{ tables := [], pageText := "", columns := [] },
           { tables := [[["ALBERTA", "1.21", "1.29", "1.26", "1.19", "1.21"],
                         [""], [""], [""]]],
             pageText := "", columns := [] }] (((1 : ℕ) : ℤ) + 1) ((2 : ℕ) : ℤ) := by
  constructor
  · exact claim_C8_amended.1
      [{ tables := [], pageText := "", columns := [] },
       { tables := [[["ALBERTA", "1.21", "1.29", "1.26", "1.19", "1.21"],
                     [""], [""], [""]]],
         pageText := "", columns := [] }] "mvs.pdf" 1 2 (by decide)
  · exact claim_C8_amended.2
      [{ tables := [], pageText := "", columns := [] },
       { tables := [[["ALBERTA", "1.21", "1.29", "1.26", "1.19", "1.21"],
                     [""], [""], [""]]],
         pageText := "", columns := [] }] 1 2 (by decide) (by decide) (by decide)

theorem fapDedupGo_keys : ∀ (seen : List (ℤ × ℤ)) (l : List FapEntry),
    ((fapDedupGo seen l).map
        (fun e => (e.floor_area_sqft, e.perimeter_ft))).Nodup ∧
    ∀ e ∈ fapDedupGo seen l, (e.floor_area_sqft, e.perimeter_ft) ∉ seen
  | seen, [] => by
    refine ⟨List.nodup_nil, ?_⟩
    intro e he
    exact absurd he (List.not_mem_nil _)
  | seen, m :: rest => by
    unfold fapDedupGo
    split
    · exact fapDedupGo_keys seen rest
    · rename_i hc
      have ih := fapDedupGo_keys ((m.floor_area_sqft, m.perimeter_ft) :: seen) rest
      constructor
      · rw [List.map_cons, List.nodup_cons]
        refine ⟨?_, ih.1⟩
        intro hmem
        rw [List.mem_map] at hmem
        obtain ⟨e, he, hk⟩ := hmem
        have h2 := ih.2 e he
        rw [hk] at h2
        exact h2 (List.mem_cons_self _ _)
      · intro e he
        rw [List.mem_cons] at he
        rcases he with he | he
        · subst he
          intro hmem
          apply hc
          simpa using hmem
        · have h2 := ih.2 e he
          intro hmem
          exact h2 (List.mem_cons_of_mem _ hmem)

theorem fapDedupGo_fix : ∀ (seen : List (ℤ × ℤ)) (l : List FapEntry),
    (l.map (fun e => (e.floor_area_sqft, e.perimeter_ft))).Nodup →
    (∀ e ∈ l, (e.floor_area_sqft, e.perimeter_ft) ∉ seen) →
    fapDedupGo seen l = l
  | seen, [], _, _ => rfl
  | seen, m :: rest, hnd, hdisj => by
    unfold fapDedupGo
    rw [List.map_cons, List.nodup_cons] at hnd
    have hm : (m.floor_area_sqft, m.perimeter_ft) ∉ seen :=
      hdisj m (List.mem_cons_self _ _)
    rw [if_neg (by simpa using hm)]
    congr 1
    apply fapDedupGo_fix _ _ hnd.2
    intro e he hmem
    rw [List.mem_cons] at hmem
    rcases hmem with hmem | hmem
    · exact hnd.1 (List.mem_map.mpr ⟨e, he, hmem.symm ▸ rfl⟩)
    · exact hdisj e (List.mem_cons_of_mem _ he) hmem

theorem fapDedupGo_covers : ∀ (seen : List (ℤ × ℤ)) (l : List FapEntry)
    (e : FapEntry), e ∈ l →
    (e.floor_area_sqft, e.perimeter_ft) ∈ seen ∨
      ∃ x ∈ fapDedupGo seen l,
        (x.floor_area_sqft, x.perimeter_ft) = (e.floor_area_sqft, e.perimeter_ft)
  | seen, [], e, he => absurd he (List.not_mem_nil _)
  | seen, m :: rest, e, he => by
    rw [List.mem_cons] at he
    unfold fapDedupGo
    split
    · rename_i hc
      rcases he with he | he
      · subst he
        left
        simpa using hc
      · exact fapDedupGo_covers seen rest e he
    · rename_i hc
      rcases he with he | he
      · subst he
        right
        exact ⟨e, List.mem_cons_self _ _, rfl⟩
      · rcases fapDedupGo_covers
            ((m.floor_area_sqft, m.perimeter_ft) :: seen) rest e he with h | h
        · rw [List.mem_cons] at h
          rcases h with h | h
          · right
            exact ⟨m, List.mem_cons_self _ _, h.symm⟩
          · left
            exact h
        · obtain ⟨x, hx, hk⟩ := h
          right
          exact ⟨x, List.mem_cons_of_mem _ hx, hk⟩

/-- C9: the Floor-Area/Perimeter assembler's output holds at most one
record per `(floor_area, perimeter)` pair.  (1) For any raw scan list:
the deduplicated list's key pairs are pairwise distinct, every scanned
pair is still represented by exactly one surviving record, and re-running
the dedup pass is a no-op; (2) for any successful run of
`parse_floor_area_perimeter_data`, the emitted `multipliers` list has
pairwise-distinct key pairs and re-deduplicating it is a no-op. -/
theorem claim_C9 :
    (∀ l : List FapEntry,
      ((fapDedup l).map
          (fun e => (e.floor_area_sqft, e.perimeter_ft))).Nodup ∧
      (∀ e ∈ l, ∃ x ∈ fapDedup l,
        (x.floor_area_sqft, x.perimeter_ft) =
          (e.floor_area_sqft, e.perimeter_ft)) ∧
      fapDedup (fapDedup l) = fapDedup l) ∧
    (∀ (words : List PdfWord) (d : FapData),
      parse_floor_area_perimeter_data words = some d →
      (d.multipliers.map
          (fun e => (e.floor_area_sqft, e.perimeter_ft))).Nodup ∧
      fapDedup d.multipliers = d.multipliers) := by
  constructor
  · intro l
    refine ⟨(fapDedupGo_keys [] l).1, ?_, ?_⟩
    · intro e he
      rcases fapDedupGo_covers [] l e he with h | h
      · exact absurd h (List.not_mem_nil _)
      · exact h
    · exact fapDedupGo_fix [] (fapDedup l) (fapDedupGo_keys [] l).1
        (fun e _ => List.not_mem_nil _)
  · intro words d h
    unfold parse_floor_area_perimeter_data at h
    dsimp only at h
    split at h
    · exact absurd h (by simp)
    · split at h
      · exact absurd h (by simp)
      · split at h
        · exact absurd h (by simp)
        · injection h with h
          subst h
          dsimp only
          refine ⟨(fapDedupGo_keys [] _).1, ?_⟩
          exact fapDedupGo_fix [] _ (fapDedupGo_keys [] _).1
            (fun e _ => List.not_mem_nil _)

/-- C9 witness: a raw scan list that repeats the pair `(1500, 160)` keeps
exactly one surviving record for it, and a concrete page run whose
column-band overlap scans the pair `(1500, 160)` twice emits it once —
its output has pairwise-distinct keys and re-deduplication is a no-op. -/
theorem claim_C9_witness :
    (∃ x ∈ fapDedup
        [{ floor_area_sqft := 1500, perimeter_ft := 160,
           multiplier := mkRat 21 20 },
         { floor_area_sqft := 1500, perimeter_ft := 160,
           multiplier := mkRat 53 50 },
         { floor_area_sqft := 1500, perimeter_ft := 200,
           multiplier := mkRat 11 10 }],
      (x.floor_area_sqft, x.perimeter_ft) = ((1500 : ℤ), (160 : ℤ))) ∧
    (([{ floor_area_sqft := 1500, perimeter_ft := 160,
         multiplier := mkRat 21 20 },
       { floor_area_sqft := 1500, perimeter_ft := 200,
         multiplier := mkRat 11 10 }].map
        (fun e : FapEntry => (e.floor_area_sqft, e.perimeter_ft))).Nodup ∧
     fapDedup
        [{ floor_area_sqft := 1500, perimeter_ft := 160,
           multiplier := mkRat 21 20 },
         { floor_area_sqft := 1500, perimeter_ft := 200,
           multiplier := mkRat 11 10 }] =
        [{ floor_area_sqft := 1500, perimeter_ft := 160,
           multiplier := mkRat 21 20 },
         { floor_area_sqft := 1500, perimeter_ft := 200,
           multiplier := mkRat 11 10 }]) := by
  constructor
  · exact (claim_C9.1
      [{ floor_area_sqft := 1500, perimeter_ft := 160,
         multiplier := mkRat 21 20 },
       { floor_area_sqft := 1500, perimeter_ft := 160,
         multiplier := mkRat 53 50 },
       { floor_area_sqft := 1500, perimeter_ft := 200,
         multiplier := mkRat 11 10 }]).2.1
      { floor_area_sqft := 1500, perimeter_ft := 160,
        multiplier := mkRat 53 50 } (by decide)
  · exact claim_C9.2
      [⟨"FLOOR", 10, 5⟩, ⟨"AREA/PERIMETER", 60, 5⟩, ⟨"MULTIPLIERS", 160, 5⟩,
       ⟨"160", 100, 30⟩, ⟨"200", 180, 30⟩,
       ⟨"1500", 10, 50⟩, ⟨"1.05", 102, 50⟩, ⟨"1.06", 105, 50⟩,
       ⟨"1.10", 182, 50⟩]
      { perimeter_values := perimeter_values_ft,
        floor_area_values := floor_area_values_ft,
        multipliers :=
          [{ floor_area_sqft := 1500, perimeter_ft := 160,
             multiplier := mkRat 21 20 },
           { floor_area_sqft := 1500, perimeter_ft := 200,
             multiplier := mkRat 11 10 }] }
      (by decide)

theorem posLookaheadRegion_regional {dc : String} {page : ℕ} {cl : String}
    {next : Option String} {e : LocalEntry}
    (h : posLookaheadRegion dc page cl next = some e) : e.is_regional = true := by
  unfold posLookaheadRegion at h
  split at h
  · simp at h
  · dsimp only at h
    split at h
    · split at h
      · split at h
        · injection h with h
          subst h
          rfl
        · simp at h
      · simp at h
    · simp at h

theorem lmTableRowStep_noRegion {country : String} {page : ℕ}
    {row : List String} {e : LocalEntry}
    (h : e ∈ (lmTableRowStep country page none row).2)
    (hreg : e.is_regional = false) :
    e.region = none ∧ e.city = some e.location := by
  unfold lmTableRowStep at h
  dsimp only at h
  split at h
  · exact absurd h (List.not_mem_nil _)
  · split at h
    · exact absurd h (List.not_mem_nil _)
    · split at h
      · exact absurd h (List.not_mem_nil _)
      · split at h
        · exact absurd h (List.not_mem_nil _)
        · split at h
          · exact absurd h (List.not_mem_nil _)
          · split at h
            · split at h
              · rw [List.mem_singleton] at h
                subst h
                simp [mkLocalRegional] at hreg
              · rw [List.mem_singleton] at h
                subst h
                exact ⟨rfl, rfl⟩
            · exact absurd h (List.not_mem_nil _)

theorem posLineStep_noRegion {dc : String} {page : ℕ} {p : Option String}
    {ln : String × Option String} {e : LocalEntry}
    (h : e ∈ (posLineStep dc page (none, p) ln).2)
    (hreg : e.is_regional = false) :
    e.region = none ∧ e.city = some e.location := by
  unfold posLineStep at h
  dsimp only at h
  split at h
  · exact absurd h (List.not_mem_nil _)
  · split at h
    · exact absurd h (List.not_mem_nil _)
    · split at h
      · exact absurd h (List.not_mem_nil _)
      · split at h
        · split at h
          · split at h
            · rename_i heq
              rw [List.mem_singleton] at h
              subst h
              rw [posLookaheadRegion_regional heq] at hreg
              exact Bool.noConfusion hreg
            · exact absurd h (List.not_mem_nil _)
          · exact absurd h (List.not_mem_nil _)
        · split at h
          · split at h
            · exact absurd h (List.not_mem_nil _)
            · split at h
              · rw [List.mem_singleton] at h
                subst h
                simp [mkLocalRegional] at hreg
              · rw [List.mem_singleton] at h
                subst h
                exact ⟨rfl, rfl⟩
          · exact absurd h (List.not_mem_nil _)

/-- C10: in the Local Multiplier assembler, a mixed-case (city) row met
before any region header (state `None`) is still emitted: in both the
grid path (`parse_table_data` row step) and the positional path
(`parse_position_based_text` line step), every non-regional record
emitted from the no-region state has `region = None` and a `location`
equal to the bare city name (no ", region" suffix) — and the concrete
city row "Calgary 1.21 1.30 1.27 1.20 1.21" is indeed emitted from the
no-region state with exactly those fields, on both paths. -/
theorem claim_C10 :
    (∀ (country : String) (page : ℕ) (row : List String) (e : LocalEntry),
      e ∈ (lmTableRowStep country page none row).2 → e.is_regional = false →
      e.region = none ∧ e.city = some e.location) ∧
    (∀ (dc : String) (page : ℕ) (p : Option String)
        (ln : String × Option String) (e : LocalEntry),
      e ∈ (posLineStep dc page (none, p) ln).2 → e.is_regional = false →
      e.region = none ∧ e.city = some e.location) ∧
    lmTableRowStep "Unknown" 7 none
        ["Calgary", "1.21", "1.30", "1.27", "1.20", "1.21"] =
      (none, [{ location := "Calgary",
                city := some "Calgary",
                region := none,
                country := "Unknown",
                class_a := mkRat 121 100,
                class_b := mkRat 13 10,
                class_c := mkRat 127 100,
                class_d := mkRat 6 5,
                class_s := mkRat 121 100,
                source_page := 7,
                is_regional := false }]) ∧
    posLineStep "Unknown" 7 (none, none)
        ("Calgary 1.21 1.30 1.27 1.20 1.21", none) =
      ((none, none), [{ location := "Calgary",
                        city := some "Calgary",
                        region := none,
                        country := "Unknown",
                        class_a := mkRat 121 100,
                        class_b := mkRat 13 10,
                        class_c := mkRat 127 100,
                        class_d := mkRat 6 5,
                        class_s := mkRat 121 100,
                        source_page := 7,
                        is_regional := false }]) := by
  refine ⟨?_, ?_, ?_, ?_⟩
  · intro country page row e h hreg
    exact lmTableRowStep_noRegion h hreg
  · intro dc page p ln e h hreg
    exact posLineStep_noRegion h hreg
  · decide
  · decide

/-- C10 witness: the no-region field shape instantiated at the record the
table row step emits for "Calgary" from state `None`. -/
theorem claim_C10_witness :
    ({ location := "Calgary",
       city := some "Calgary",
       region := none,
       country := "Unknown",
       class_a := mkRat 121 100,
       class_b := mkRat 13 10,
       class_c := mkRat 127 100,
       class_d := mkRat 6 5,
       class_s := mkRat 121 100,
       source_page := 7,
       is_regional := false } : LocalEntry).region = none ∧
    ({ location := "Calgary",
       city := some "Calgary",
       region := none,
       country := "Unknown",
       class_a := mkRat 121 100,
       class_b := mkRat 13 10,
       class_c := mkRat 127 100,
       class_d := mkRat 6 5,
       class_s := mkRat 121 100,
       source_page := 7,
       is_regional := false } : LocalEntry).city =
      some ({ location := "Calgary",
              city := some "Calgary",
              region := none,
              country := "Unknown",
              class_a := mkRat 121 100,
              class_b := mkRat 13 10,
              class_c := mkRat 127 100,
              class_d := mkRat 6 5,
              class_s := mkRat 121 100,
              source_page := 7,
              is_regional := false } : LocalEntry).location := by
  exact claim_C10.1 "Unknown" 7
    ["Calgary", "1.21", "1.30", "1.27", "1.20", "1.21"]
    { location := "Calgary",
      city := some "Calgary",
      region := none,
      country := "Unknown",
      class_a := mkRat 121 100,
      class_b := mkRat 13 10,
      class_c := mkRat 127 100,
      class_d := mkRat 6 5,
      class_s := mkRat 121 100,
      source_page := 7,
      is_regional := false } (by decide) (by decide)
